import Mathlib

/-!
# EduOM: slotted-page object manager

A shallow embedding of the three C functions of the repository

* `EduOM_CompactPage`   (src/EduOM_CompactPage.c)
* `EduOM_DestroyObject` (src/EduOM_DestroyObject.c)
* `EduOM_NextObject`    (src/EduOM_NextObject.c)

followed by theorems about them.

Conventions of the embedding.

* A `SlottedPage` keeps its header, its data area (a list of bytes) and its slot array
  (a list indexed by slot number: the C expression `apage->slot[-i]` is `slotAt apage i`).
  The data area and the slot array are kept apart; in C they share the page frame.
* Integers of the C types `Two` and `Four` are `Int`. The local `Two` variables that the
  source increments (`apageDataOffset`, `lastSlot`) are wrapped with `wrapTwo`, and so
  are the values that the source computes into the `Two` header fields `nSlots` and
  `unused` (`lastSlot + 1`, `unused += ...`).
* The headers `EduOM_common.h`, `EduOM_Internal.h`, `BfM.h`, `Util.h` are not part of the
  sources. Their constants and type sizes are the fields of `Consts`; the functions of the
  other modules (buffer manager, available-space list, file map, pool) are the fields
  of `Collab`, each reduced to its return code, and every call is recorded in a trace.
-/

namespace EduOM

/-! ## Constants and types -/

/-- Constants, type sizes and the alignment rule that the C sources take from headers which
are not among the source files. They are parameters of the whole development. -/
structure Consts where
  /-- The value of `NIL`. -/
  NIL : Int
  /-- The value of `EMPTYSLOT`, the offset stored in an empty slot. -/
  EMPTYSLOT : Int
  /-- The value of `EOS`. -/
  EOS : Int
  /-- The value of `eNOERROR`. -/
  eNOERROR : Int
  /-- The value of `eBADCATALOGOBJECT_OM`. -/
  eBADCATALOGOBJECT_OM : Int
  /-- The value of `eBADOBJECTID_OM`. -/
  eBADOBJECTID_OM : Int
  /-- The value of `DL_PAGE`. -/
  DL_PAGE : Int
  /-- The value of `sizeof(obj->header)`, the size of an `ObjectHdr`. -/
  sizeofObjectHdr : Nat
  /-- The value of `sizeof(obj->data)`, the size of the array member `data` of `Object`. -/
  sizeofObjectData : Nat
  /-- The value of `sizeof(obj)` for `Object *obj`, the size of a pointer. -/
  sizeofObjectPtr : Nat
  /-- The value of `sizeof(SlottedPageSlot)`. -/
  sizeofSlottedPageSlot : Nat
  /-- The function computed by `ALIGNED_LENGTH(l)`. -/
  ALIGNED_LENGTH : Int → Int
  /-- The field `length` of the `ObjectHdr` that starts at a given offset of a data area. -/
  hdrLength : List Int → Int → Int

/-- The C type `PageID`. -/
structure PageID where
  pageNo : Int
  volNo : Int
deriving DecidableEq

/-- The C type `ObjectID`. -/
structure ObjectID where
  pageNo : Int
  volNo : Int
  slotNo : Int
  unique : Int
deriving DecidableEq

/-- The C type `SlottedPageSlot`: data offset and generation stamp. -/
structure SlottedPageSlot where
  offset : Int
  unique : Int
deriving DecidableEq

/-- The fields of `SlottedPageHdr` that the three functions read or write. -/
structure SlottedPageHdr where
  pid : PageID
  nSlots : Int
  free : Int
  unused : Int
  nextPage : Int
  prevPage : Int
deriving DecidableEq

/-- The C type `SlottedPage`. -/
structure SlottedPage where
  header : SlottedPageHdr
  data : List Int
  slot : List SlottedPageSlot
deriving DecidableEq

/-- Conversion of an `int` value to the two-byte signed type `Two`. -/
def wrapTwo (x : Int) : Int := (x + 32768) % 65536 - 32768

/-- The byte `p.data[i]`. An index outside the modelled data area reads 0
(C leaves such a read undefined). -/
def dataAt (p : SlottedPage) (i : Int) : Int :=
  if 0 ≤ i then p.data.getD i.toNat 0 else 0

/-- The store `p.data[i] = v`. An index outside the modelled data area stores nothing. -/
def setData (p : SlottedPage) (i : Int) (v : Int) : SlottedPage :=
  if 0 ≤ i then { p with data := p.data.set i.toNat v } else p

/-- The slot entry `p.slot[-i]`. An index outside the modelled slot array reads a zero entry
(C leaves such a read undefined). -/
def slotAt (p : SlottedPage) (i : Int) : SlottedPageSlot :=
  if 0 ≤ i then p.slot.getD i.toNat ⟨0, 0⟩ else ⟨0, 0⟩

/-- The store `p.slot[-i].offset = v`; the generation stamp of the entry is kept. -/
def setSlotOffset (p : SlottedPage) (i : Int) (v : Int) : SlottedPage :=
  if 0 ≤ i then
    { p with slot := p.slot.set i.toNat { offset := v, unique := (slotAt p i).unique } }
  else p

/-! ## EduOM_CompactPage -/

/-- The local variables of `EduOM_CompactPage` that the loops update, with the page. -/
structure CompactState where
  apage : SlottedPage
  apageDataOffset : Int
  lastSlot : Int
deriving DecidableEq

/-- The statements of a loop body of `EduOM_CompactPage` after the `continue` test, for slot `i`:
`apage->data[apageDataOffset] = tpage.data[tpage.slot[-i].offset]` stores ONE byte;
`len = sizeof(obj->header) + sizeof(obj->data)` is a constant (`obj` is only used
inside `sizeof`, so it is never dereferenced). -/
def compactCopy (C : Consts) (tpage : SlottedPage) (st : CompactState) (i : Int) :
    CompactState :=
  let len : Int := (C.sizeofObjectHdr : Int) + (C.sizeofObjectData : Int)
  { apage := setSlotOffset
      (setData st.apage st.apageDataOffset (dataAt tpage (slotAt tpage i).offset))
      i st.apageDataOffset
    apageDataOffset := wrapTwo (st.apageDataOffset + len)
    lastSlot := wrapTwo (st.lastSlot + 1) }

/-- Body of the loop of the branch `slotNo != NIL` (source lines 94-104). -/
def compactBodyPinned (C : Consts) (tpage : SlottedPage) (slotNo : Int)
    (st : CompactState) (i : Nat) : CompactState :=
  if (slotAt tpage i).offset = C.EMPTYSLOT ∨ (i : Int) = slotNo then st
  else compactCopy C tpage st i

/-- Body of the loop of the branch `slotNo == NIL` (source lines 111-121). -/
def compactBodyAll (C : Consts) (tpage : SlottedPage)
    (st : CompactState) (i : Nat) : CompactState :=
  if (slotAt tpage i).offset = C.EMPTYSLOT then st
  else compactCopy C tpage st i

/-- The slot numbers visited by `for (i = 1; i < tpage.header.nSlots; i++)`. -/
def compactRange (tpage : SlottedPage) : List Nat :=
  List.range' 1 (tpage.header.nSlots.toNat - 1)

/-- The statements after the loop in the branch `slotNo != NIL` (source lines 105-109):
one byte of the pinned slot is stored, its offset is rewritten, and the cursor advances
by `sizeof(obj)`, the size of a pointer. -/
def compactPinnedLast (C : Consts) (tpage : SlottedPage) (slotNo : Int)
    (st : CompactState) : CompactState :=
  { apage := setSlotOffset
      (setData st.apage st.apageDataOffset (dataAt tpage (slotAt tpage slotNo).offset))
      slotNo st.apageDataOffset
    apageDataOffset := wrapTwo (st.apageDataOffset + (C.sizeofObjectPtr : Int))
    lastSlot := wrapTwo (st.lastSlot + 1) }

/-- The state at the end of the `if (slotNo != NIL) ... else ...` statement. -/
def compactLoops (C : Consts) (apage : SlottedPage) (slotNo : Int) : CompactState :=
  let tpage := apage
  let st0 : CompactState := { apage := apage, apageDataOffset := 0, lastSlot := 0 }
  if slotNo ≠ C.NIL then
    compactPinnedLast C tpage slotNo
      ((compactRange tpage).foldl (compactBodyPinned C tpage slotNo) st0)
  else
    (compactRange tpage).foldl (compactBodyAll C tpage) st0

/-- The function `EduOM_CompactPage(apage, slotNo)`: the page it leaves in `*apage`
(its return value is always `eNOERROR`). The header field `nSlots` has the type `Two`:
the `int` value `lastSlot + 1` is converted to it. -/
def EduOM_CompactPage (C : Consts) (apage : SlottedPage) (slotNo : Int) : SlottedPage :=
  let st := compactLoops C apage slotNo
  { st.apage with
    header := { st.apage.header with
      unused := 0
      nSlots := wrapTwo (st.lastSlot + 1)
      free := st.apageDataOffset } }

/-! ## Collaborators -/

/-- A call of a function of another module, as made by `EduOM_DestroyObject` or
`EduOM_NextObject`, with the code it returned. `BfM_FreeTrain` is recorded without a
code: the sources ignore what it returns. All buffer calls use the type `PAGE_BUF`. -/
inductive Event where
  | BfM_GetTrain (pid : PageID) (e : Int)
  | BfM_FreeTrain (pid : PageID)
  | BfM_SetDirty (pid : PageID) (e : Int)
  | om_RemoveFromAvailSpaceList (pid : PageID) (e : Int)
  | om_PutInAvailSpaceList (pid : PageID) (e : Int)
  | om_FileMapDeletePage (pid : PageID) (e : Int)
  | Util_getElementFromPool (e : Int)
deriving DecidableEq

/-- The fields of the catalog overlay `sm_CatOverlayForData` that the sources read. -/
structure sm_CatOverlayForData where
  firstPage : Int
  lastPage : Int
deriving DecidableEq

/-- The functions of the other modules, which are not among the source files. Each is
reduced to the code it returns (negative on failure); `BfM_GetTrain` also gives the page
that the returned buffer pointer designates. They are parameters of the development.
The last field is the machine memory as seen through a pointer that was made from an
integer: see `destroyUpdate`. -/
structure Collab where
  /-- The call `BfM_GetTrain(&pid, &buf, PAGE_BUF)`: return code and fetched page. -/
  BfM_GetTrain : PageID → Int × SlottedPage
  /-- The call `BfM_FreeTrain(&pid, PAGE_BUF)`. The sources never read the code it returns,
  so no definition below depends on this field. -/
  BfM_FreeTrain : PageID → Int
  /-- The call `BfM_SetDirty(&pid, PAGE_BUF)`. -/
  BfM_SetDirty : PageID → Int
  /-- The call `om_RemoveFromAvailSpaceList(catObjForFile, &pid, apage)`. -/
  om_RemoveFromAvailSpaceList : ObjectID → PageID → SlottedPage → Int
  /-- The call `om_PutInAvailSpaceList(catObjForFile, &pid, apage)`. -/
  om_PutInAvailSpaceList : ObjectID → PageID → SlottedPage → Int
  /-- The call `om_FileMapDeletePage(catObjForFile, &pid)`. -/
  om_FileMapDeletePage : ObjectID → PageID → Int
  /-- The call `Util_getElementFromPool(dlPool, &dlElem)`. -/
  Util_getElementFromPool : Int
  /-- The catalog entry that `GET_PTR_TO_CATENTRY_FOR_DATA(catObjForFile, catPage, catEntry)`
  makes `catEntry` point to. -/
  GET_PTR_TO_CATENTRY_FOR_DATA : ObjectID → SlottedPage → sm_CatOverlayForData
  /-- The value read by `obj->header.length` when the pointer `obj` was made by converting
  the integer `v` to `Object*`; `none` when the access faults. -/
  strayLength : Int → Option Int

/-- An element of the list of deferred deallocations (`DeallocListElem`): the fields
`type` and `elem.pid`. The list itself stands for the chain `dlHead->next, ...`. -/
structure DeallocListElem where
  type : Int
  pid : PageID
deriving DecidableEq

/-- Modelled from the spec: the macro `MAKE_OBJECTID(oid, volNo, pageNo, slotNo, unique)` of the
missing headers, which fills the four fields of an ObjectID (volume, page number, slot
number, generation stamp) from its arguments in that order. -/
def MAKE_OBJECTID (volNo pageNo slotNo unique : Int) : ObjectID :=
  { pageNo := pageNo, volNo := volNo, slotNo := slotNo, unique := unique }

/-! ## EduOM_DestroyObject

The macros `ERR(e)` and `ERRB1(e, pid, type)` of the missing headers are read as
`return e` and as `BfM_FreeTrain(pid, type); return e`. -/

/-- What a call of `EduOM_DestroyObject` leaves behind: the returned code (`none` when the
call did not return because a memory access faulted), the data page buffer if it was
fetched, the list of deferred deallocations, and the calls made, in order. -/
structure DestroyResult where
  ret : Option Int
  apage : Option SlottedPage
  dlHead : List DeallocListElem
  trace : List Event
deriving DecidableEq

/-- Source lines 126-135, on the page whose slot is already marked empty; `offset` is the
former offset of the slot. In the `else` branch the source computes
`obj = (Object*)apage->data[offset]`: the BYTE stored at `offset` is converted to a
pointer (it is not the address of that byte), and `obj->header.length` is read through
it. That read is `K.strayLength` of the byte; `none` is a fault. The header field
`unused` has the type `Two`: the sum computed by `+=` is converted to it. In the
last-slot branch the stored values need no conversion: `nSlots - 1` is the `Two` value
`slotNo`, and `offset` was read from the `Two` offset field of the slot. -/
def destroyUpdate (C : Consts) (K : Collab) (apage : SlottedPage) (slotNo offset : Int) :
    Option SlottedPage :=
  if slotNo + 1 = apage.header.nSlots then
    some { apage with header := { apage.header with
      nSlots := apage.header.nSlots - 1
      free := offset } }
  else
    match K.strayLength (dataAt apage offset) with
    | none => none
    | some length =>
      let alignedLen := C.ALIGNED_LENGTH length
      some { apage with header := { apage.header with
        unused := wrapTwo (apage.header.unused
          + ((C.sizeofObjectHdr : Int) + alignedLen + (C.sizeofSlottedPageSlot : Int))) } }

/-- Source lines 137-158: from `BfM_SetDirty` to the final `return(eNOERROR)`.
`tr` is the trace so far. -/
def destroyFinish (C : Consts) (K : Collab) (cat : ObjectID) (o : ObjectID)
    (catEntry : sm_CatOverlayForData) (pid : PageID) (apage : SlottedPage)
    (dlHead : List DeallocListElem) (tr : List Event) : DestroyResult :=
  let catPid : PageID := { pageNo := cat.pageNo, volNo := cat.volNo }
  let e4 := K.BfM_SetDirty pid
  let t4 := tr ++ [Event.BfM_SetDirty pid e4]
  if e4 < 0 then
    { ret := some e4, apage := some apage, dlHead := dlHead,
      trace := t4 ++ [Event.BfM_FreeTrain pid] }
  else if apage.header.nSlots = 1 ∧ o.pageNo ≠ catEntry.firstPage then
    let e5 := K.om_FileMapDeletePage cat pid
    let t5 := t4 ++ [Event.om_FileMapDeletePage pid e5]
    if e5 < 0 then
      { ret := some e5, apage := some apage, dlHead := dlHead,
        trace := t5 ++ [Event.BfM_FreeTrain pid] }
    else
      let e6 := K.Util_getElementFromPool
      let t6 := t5 ++ [Event.Util_getElementFromPool e6]
      if e6 < 0 then
        { ret := some e6, apage := some apage, dlHead := dlHead,
          trace := t6 ++ [Event.BfM_FreeTrain pid] }
      else
        { ret := some C.eNOERROR, apage := some apage,
          dlHead := { type := C.DL_PAGE, pid := pid } :: dlHead,
          trace := t6 ++ [Event.BfM_FreeTrain catPid] }
  else
    let e7 := K.om_PutInAvailSpaceList cat pid apage
    let t7 := t4 ++ [Event.om_PutInAvailSpaceList pid e7]
    if e7 < 0 then
      { ret := some e7, apage := some apage, dlHead := dlHead,
        trace := t7 ++ [Event.BfM_FreeTrain pid] }
    else
      { ret := some C.eNOERROR, apage := some apage, dlHead := dlHead,
        trace := t7 ++ [Event.BfM_FreeTrain catPid] }

/-- Source lines 107-158 of `EduOM_DestroyObject`, both pointer arguments being non-null. -/
def destroyBody (C : Consts) (K : Collab) (cat : ObjectID) (o : ObjectID)
    (dlHead : List DeallocListElem) : DestroyResult :=
  let catPid : PageID := { pageNo := cat.pageNo, volNo := cat.volNo }
  let e1 := (K.BfM_GetTrain catPid).1
  let catPage := (K.BfM_GetTrain catPid).2
  let t1 := [Event.BfM_GetTrain catPid e1]
  if e1 < 0 then { ret := some e1, apage := none, dlHead := dlHead, trace := t1 }
  else
    let catEntry := K.GET_PTR_TO_CATENTRY_FOR_DATA cat catPage
    let pid : PageID := { pageNo := o.pageNo, volNo := o.volNo }
    let e2 := (K.BfM_GetTrain pid).1
    let apage := (K.BfM_GetTrain pid).2
    let t2 := t1 ++ [Event.BfM_GetTrain pid e2]
    if e2 < 0 then { ret := some e2, apage := none, dlHead := dlHead, trace := t2 }
    else
      let e3 := K.om_RemoveFromAvailSpaceList cat pid apage
      let t3 := t2 ++ [Event.om_RemoveFromAvailSpaceList pid e3]
      if e3 < 0 then
        { ret := some e3, apage := some apage, dlHead := dlHead,
          trace := t3 ++ [Event.BfM_FreeTrain pid] }
      else
        let offset := (slotAt apage o.slotNo).offset
        let apage1 := setSlotOffset apage o.slotNo C.EMPTYSLOT
        match destroyUpdate C K apage1 o.slotNo offset with
        | none => { ret := none, apage := some apage1, dlHead := dlHead, trace := t3 }
        | some apage2 => destroyFinish C K cat o catEntry pid apage2 dlHead t3

/-- The function `EduOM_DestroyObject(catObjForFile, oid, dlPool, dlHead)`. A null pointer
argument is `none`. -/
def EduOM_DestroyObject (C : Consts) (K : Collab) (catObjForFile oid : Option ObjectID)
    (dlHead : List DeallocListElem) : DestroyResult :=
  match catObjForFile, oid with
  | none, _ =>
    { ret := some C.eBADCATALOGOBJECT_OM, apage := none, dlHead := dlHead, trace := [] }
  | some _, none =>
    { ret := some C.eBADOBJECTID_OM, apage := none, dlHead := dlHead, trace := [] }
  | some cat, some o => destroyBody C K cat o dlHead

/-! ## EduOM_NextObject

The loops of `EduOM_NextObject` follow the page chain and need not end (the chain may be
cyclic), so each loop takes a bound `fuel` on its number of iterations; `none` means that
the bound was reached. -/

/-- What a call of `EduOM_NextObject` leaves behind: the returned code, the contents of the
caller's `*nextOID` and of the caller's header buffer `*objHdr` (`none` for a null
pointer), and the calls made, in order. -/
structure NextResult where
  ret : Int
  nextOID : Option ObjectID
  objHdr : Option (List Int)
  trace : List Event
deriving DecidableEq

/-- Source lines 100-116: the loop `while (pageNo != NIL)` of the branch `curOID == NULL`
and the `return(EOS)` after it. In the loop, `objHdr = (ObjectHdr*)(apage->data[offset])`
assigns the local pointer variable only: nothing is stored into the caller's header
buffer, which is returned as it was passed. -/
def nextFromStart (C : Consts) (K : Collab) (volNo : Int) (nextOID : ObjectID)
    (objHdr : Option (List Int)) : Nat → Int → List Event → Option NextResult
  | 0, pageNo, tr =>
    if pageNo ≠ C.NIL then none
    else some { ret := C.EOS, nextOID := some nextOID, objHdr := objHdr, trace := tr }
  | fuel + 1, pageNo, tr =>
    if pageNo ≠ C.NIL then
      let pid : PageID := { pageNo := pageNo, volNo := volNo }
      let e := (K.BfM_GetTrain pid).1
      let apage := (K.BfM_GetTrain pid).2
      let tr1 := tr ++ [Event.BfM_GetTrain pid e]
      if e < 0 then
        some { ret := e, nextOID := some nextOID, objHdr := objHdr, trace := tr1 }
      else if apage.header.nSlots = 1 then
        nextFromStart C K volNo nextOID objHdr fuel apage.header.nextPage
          (tr1 ++ [Event.BfM_FreeTrain pid])
      else
        some { ret := C.EOS
               nextOID := some (MAKE_OBJECTID pid.volNo pid.pageNo 1 (slotAt apage 1).unique)
               objHdr := objHdr
               trace := tr1 }
    else some { ret := C.EOS, nextOID := some nextOID, objHdr := objHdr, trace := tr }

/-- How one of the two page-locating loops of the branch `curOID != NULL` ends: with the
error of a failed `BfM_GetTrain`, or with the page last fetched and the value of `pageNo`. -/
inductive WalkResult where
  | failed (e : Int) (tr : List Event)
  | reached (apage : SlottedPage) (pageNo : Int) (tr : List Event)
deriving DecidableEq

/-- Source lines 119-125: `do { fetch pageNo; pageNo = apage->header.nextPage; }
while (pageNo != curOID->pageNo)`. No page fetched here is released. -/
def nextWalk (K : Collab) (volNo : Int) (curPageNo : Int) :
    Nat → Int → List Event → Option WalkResult
  | 0, _, _ => none
  | fuel + 1, pageNo, tr =>
    let pid : PageID := { pageNo := pageNo, volNo := volNo }
    let e := (K.BfM_GetTrain pid).1
    let apage := (K.BfM_GetTrain pid).2
    let tr1 := tr ++ [Event.BfM_GetTrain pid e]
    if e < 0 then some (WalkResult.failed e tr1)
    else if apage.header.nextPage ≠ curPageNo then
      nextWalk K volNo curPageNo fuel apage.header.nextPage tr1
    else some (WalkResult.reached apage apage.header.nextPage tr1)

/-- Source lines 127-138: `while (1) { fetch pageNo; if (pageNo == curOID->pageNo)
{ pageNo = nextPage; break; } release; pageNo = nextPage; }`. -/
def nextLocate (K : Collab) (volNo : Int) (curPageNo : Int) :
    Nat → Int → List Event → Option WalkResult
  | 0, _, _ => none
  | fuel + 1, pageNo, tr =>
    let pid : PageID := { pageNo := pageNo, volNo := volNo }
    let e := (K.BfM_GetTrain pid).1
    let apage := (K.BfM_GetTrain pid).2
    let tr1 := tr ++ [Event.BfM_GetTrain pid e]
    if e < 0 then some (WalkResult.failed e tr1)
    else if pageNo = curPageNo then
      some (WalkResult.reached apage apage.header.nextPage tr1)
    else
      nextLocate K volNo curPageNo fuel apage.header.nextPage
        (tr1 ++ [Event.BfM_FreeTrain pid])

/-- Source lines 140-158, `apage` being the page of the current object and `pageNo` its
`nextPage`. When the current slot is not the last entry of the slot array, control
leaves the `if` without storing anything and reaches the final `return(EOS)`. -/
def nextAfterLocate (C : Consts) (K : Collab) (cat cur : ObjectID)
    (catEntry : sm_CatOverlayForData) (nextOID : ObjectID) (objHdr : Option (List Int))
    (apage : SlottedPage) (pageNo : Int) (tr : List Event) : NextResult :=
  let catPid : PageID := { pageNo := cat.pageNo, volNo := cat.volNo }
  if cur.slotNo + 1 = apage.header.nSlots then
    if apage.header.pid.pageNo = catEntry.lastPage then
      { ret := C.EOS, nextOID := some nextOID, objHdr := objHdr, trace := tr }
    else
      let pid : PageID := { pageNo := pageNo, volNo := apage.header.pid.volNo }
      let e := (K.BfM_GetTrain pid).1
      let apage2 := (K.BfM_GetTrain pid).2
      let tr1 := tr ++ [Event.BfM_GetTrain pid e]
      if e < 0 then
        { ret := e, nextOID := some nextOID, objHdr := objHdr, trace := tr1 }
      else
        { ret := C.EOS
          nextOID := some (MAKE_OBJECTID pid.volNo pid.pageNo 1 (slotAt apage2 1).unique)
          objHdr := objHdr
          trace := tr1 }
  else
    { ret := C.EOS, nextOID := some nextOID, objHdr := objHdr
      trace := tr ++ [Event.BfM_FreeTrain catPid] }

/-- Source lines 118-158: the branch `curOID != NULL`. -/
def nextFromCurrent (C : Consts) (K : Collab) (fuel : Nat) (cat cur : ObjectID)
    (catEntry : sm_CatOverlayForData) (volNo : Int) (nextOID : ObjectID)
    (objHdr : Option (List Int)) (tr : List Event) : Option NextResult :=
  match nextWalk K volNo cur.pageNo fuel catEntry.firstPage tr with
  | none => none
  | some (WalkResult.failed e tr1) =>
    some { ret := e, nextOID := some nextOID, objHdr := objHdr, trace := tr1 }
  | some (WalkResult.reached _ pageNo tr1) =>
    match nextLocate K volNo cur.pageNo fuel pageNo tr1 with
    | none => none
    | some (WalkResult.failed e tr2) =>
      some { ret := e, nextOID := some nextOID, objHdr := objHdr, trace := tr2 }
    | some (WalkResult.reached apage pageNo2 tr2) =>
      some (nextAfterLocate C K cat cur catEntry nextOID objHdr apage pageNo2 tr2)

/-- The function `EduOM_NextObject(catObjForFile, curOID, nextOID, objHdr)`; `fuel` bounds the
iterations of each loop. A null pointer argument is `none`; for the two output
pointers, `some` carries what the caller's buffer holds before the call. The source
tests `catObjForFile` and `nextOID` against `NULL`, and does not test `objHdr`. -/
def EduOM_NextObject (C : Consts) (K : Collab) (fuel : Nat)
    (catObjForFile curOID nextOID : Option ObjectID) (objHdr : Option (List Int)) :
    Option NextResult :=
  match catObjForFile, nextOID with
  | none, _ =>
    some { ret := C.eBADCATALOGOBJECT_OM, nextOID := nextOID, objHdr := objHdr, trace := [] }
  | some _, none =>
    some { ret := C.eBADOBJECTID_OM, nextOID := none, objHdr := objHdr, trace := [] }
  | some cat, some nxt =>
    let catPid : PageID := { pageNo := cat.pageNo, volNo := cat.volNo }
    let e := (K.BfM_GetTrain catPid).1
    let catPage := (K.BfM_GetTrain catPid).2
    let tr := [Event.BfM_GetTrain catPid e]
    if e < 0 then some { ret := e, nextOID := some nxt, objHdr := objHdr, trace := tr }
    else
      let catEntry := K.GET_PTR_TO_CATENTRY_FOR_DATA cat catPage
      match curOID with
      | none =>
        nextFromStart C K catPage.header.pid.volNo nxt objHdr fuel catEntry.firstPage tr
      | some cur =>
        nextFromCurrent C K fuel cat cur catEntry catPage.header.pid.volNo nxt objHdr tr

/-! ## Example parameters and pages -/

/-- Example values of the parameters: a four-byte-aligned layout with an eight-byte object
header whose `length` field is the little-endian `Four` at bytes 4..7, a four-byte minimal
data member, eight-byte pointers and eight-byte slot entries. -/
def exampleConsts : Consts where
  NIL := -1
  EMPTYSLOT := -1
  EOS := 1
  eNOERROR := 0
  eBADCATALOGOBJECT_OM := -101
  eBADOBJECTID_OM := -102
  DL_PAGE := 2
  sizeofObjectHdr := 8
  sizeofObjectData := 4
  sizeofObjectPtr := 8
  sizeofSlottedPageSlot := 8
  ALIGNED_LENGTH := fun l => (l + 3) / 4 * 4
  hdrLength := fun d off =>
    if 0 ≤ off then
      d.getD (off.toNat + 4) 0 + 256 * d.getD (off.toNat + 5) 0
        + 65536 * d.getD (off.toNat + 6) 0 + 16777216 * d.getD (off.toNat + 7) 0
    else 0


/-- Example object of total size 12: an 8-byte header (properties 17, tag 1,
length 4) and 4 data bytes. -/
def objA : List Int := [17, 0, 1, 0, 4, 0, 0, 0, 97, 97, 97, 97]

/-- Example object of total size 20: an 8-byte header (properties 34, tag 2,
length 12) and 12 data bytes. -/
def objB : List Int :=
  [34, 0, 2, 0, 12, 0, 0, 0, 98, 98, 98, 98, 98, 98, 98, 98, 98, 98, 98, 98]

/-- Example object of total size 16: an 8-byte header (properties 51, tag 3,
length 8) and 8 data bytes. -/
def objC : List Int := [51, 0, 3, 0, 8, 0, 0, 0, 99, 99, 99, 99, 99, 99, 99, 99]

/-- Example page header: page `pageNo` of volume 7 with the given counters and next page. -/
def exampleHdr (pageNo nSlots free unused nextPage prevPage : Int) : SlottedPageHdr :=
  { pid := { pageNo := pageNo, volNo := 7 }, nSlots := nSlots, free := free,
    unused := unused, nextPage := nextPage, prevPage := prevPage }

/-- Example page 1: slot 0 empty, the objects `objA`, `objB`, `objC` in slots 1, 2, 3,
contiguous from offset 0 (offsets 0, 12, 32), 16 free bytes after them. -/
def pageABC : SlottedPage :=
  { header := exampleHdr 1 4 48 0 (-1) (-1)
    data := objA ++ objB ++ objC ++ List.replicate 16 0
    slot := [⟨-1, 0⟩, ⟨0, 10⟩, ⟨12, 11⟩, ⟨32, 12⟩] }

/-- Example page 1 with a hole: as `pageABC`, but slot 2 is empty and the 20 bytes of `objB`
plus one slot entry are counted as unused. -/
def pageHole : SlottedPage :=
  { header := exampleHdr 1 4 48 28 (-1) (-1)
    data := objA ++ objB ++ objC ++ List.replicate 16 0
    slot := [⟨-1, 0⟩, ⟨0, 10⟩, ⟨-1, 11⟩, ⟨32, 12⟩] }

/-- Example page: the state of `pageABC` after slot 2 and then slot 3 were destroyed: slot 1
holds `objA`, the entry of slot 2 is still part of the slot array and is empty. -/
def pageTail : SlottedPage :=
  { header := exampleHdr 1 3 32 28 (-1) (-1)
    data := objA ++ objB ++ objC ++ List.replicate 16 0
    slot := [⟨-1, 0⟩, ⟨0, 10⟩, ⟨-1, 11⟩, ⟨-1, 12⟩] }

/-- Example page 1 with a single object: `objA` in slot 1, which is the last entry of the
slot array. -/
def pageSingle : SlottedPage :=
  { header := exampleHdr 1 2 12 0 (-1) (-1)
    data := objA ++ List.replicate 16 0
    slot := [⟨-1, 0⟩, ⟨0, 10⟩] }

/-- Example page 2: slot 1 is empty and the only object, `objB`, is in slot 2. -/
def pageOnlyTwo : SlottedPage :=
  { header := exampleHdr 2 3 32 20 (-1) 1
    data := objA ++ objB ++ List.replicate 16 0
    slot := [⟨-1, 0⟩, ⟨-1, 10⟩, ⟨12, 11⟩] }

/-- Example page without any object: only the entry of slot 0. -/
def pageEmpty : SlottedPage :=
  { header := exampleHdr 1 1 0 0 (-1) (-1)
    data := List.replicate 16 0
    slot := [⟨-1, 0⟩] }

/-- The page `p` with another page number and other chain links. -/
def relink (p : SlottedPage) (pageNo nextPage prevPage : Int) : SlottedPage :=
  { p with header := { p.header with
      pid := { pageNo := pageNo, volNo := p.header.pid.volNo }
      nextPage := nextPage
      prevPage := prevPage } }

/-- Example catalog object: slot 0 of page 100 of volume 7. -/
def exampleCat : ObjectID := { pageNo := 100, volNo := 7, slotNo := 0, unique := 0 }

/-- Example catalog page, page 100 of volume 7. -/
def exampleCatPage : SlottedPage :=
  { header := exampleHdr 100 1 0 0 (-1) (-1)
    data := List.replicate 16 0
    slot := [⟨0, 0⟩] }

/-- Example collaborators for a file stored in `pages`, whose catalog entry names `firstPage`
and `lastPage`: `BfM_GetTrain` succeeds on the catalog page and on the pages of the list
and fails with -201 on any other page; every other call succeeds; a read through an
integer-made pointer gives `stray`. -/
def exampleCollab (pages : List SlottedPage) (firstPage lastPage : Int)
    (stray : Option Int) : Collab where
  BfM_GetTrain := fun pid =>
    match (exampleCatPage :: pages).find? (fun p => decide (p.header.pid = pid)) with
    | some p => (0, p)
    | none => (-201, pageEmpty)
  BfM_FreeTrain := fun _ => 0
  BfM_SetDirty := fun _ => 0
  om_RemoveFromAvailSpaceList := fun _ _ _ => 0
  om_PutInAvailSpaceList := fun _ _ _ => 0
  om_FileMapDeletePage := fun _ _ => 0
  Util_getElementFromPool := 0
  GET_PTR_TO_CATENTRY_FOR_DATA := fun _ _ => { firstPage := firstPage, lastPage := lastPage }
  strayLength := fun _ => stray

/-- The `n` bytes of a page's data area that start at offset `off`. -/
def objectBytes (p : SlottedPage) (off : Int) (n : Nat) : List Int :=
  (List.range n).map (fun k => dataAt p (off + (k : Int)))

/-- Size of the object stored at offset `off` of a page, from the object's own header:
header size plus the aligned declared length. -/
def objectSize (C : Consts) (p : SlottedPage) (off : Int) : Int :=
  (C.sizeofObjectHdr : Int) + C.ALIGNED_LENGTH (C.hdrLength p.data off)

/-- The numbers of the non-empty slots of a page, among the slots `1 .. nSlots - 1`. -/
def liveSlots (C : Consts) (p : SlottedPage) : List Nat :=
  (List.range' 1 (p.header.nSlots.toNat - 1)).filter
    (fun i : Nat => decide ((slotAt p (i : Int)).offset ≠ C.EMPTYSLOT))

/-- What "destroy-last-slot" asserts of a call on the page `p` and the slot `slotNo` that
left the result `r`: the page buffer has one slot entry less, its `free` is the former
offset of the slot, and its `unused` is what it was. -/
def DestroyedLastSlot (p : SlottedPage) (slotNo : Int) (r : DestroyResult) : Prop :=
  ∃ q, r.apage = some q ∧ q.header.nSlots = p.header.nSlots - 1
    ∧ q.header.free = (slotAt p slotNo).offset ∧ q.header.unused = p.header.unused

/-- Whether an event is a call of `om_FileMapDeletePage`. -/
def Event.isFileMapDelete : Event → Bool
  | Event.om_FileMapDeletePage _ _ => true
  | _ => false

/-- Example file of one page, `pageABC`, which is its first and last page; a read through an
integer-made pointer gives `stray`. -/
def fileABC (stray : Option Int) : Collab := exampleCollab [pageABC] 1 1 stray

/-- Example file of two pages, both with the contents of `pageABC`: page 1 is the first page,
page 2 the last one. Reads through an integer-made pointer fault. -/
def fileTwoPages : Collab :=
  exampleCollab [relink pageABC 1 2 (-1), relink pageABC 2 (-1) 1] 1 2 none

/-- Example file of one page, `pageSingle`, which is its first and last page. -/
def fileSingle : Collab := exampleCollab [pageSingle] 1 1 none

/-- Example file of one page without any object. -/
def fileEmpty : Collab := exampleCollab [pageEmpty] 1 1 none

/-- Example file of one page, with the contents of `pageOnlyTwo`: slot 1 is empty and slot 2
holds the only object. -/
def fileOnlyTwo : Collab := exampleCollab [relink pageOnlyTwo 1 (-1) (-1)] 1 1 none

/-- Example contents of the caller's `*nextOID` before a call. -/
def oidBuf : ObjectID := { pageNo := 0, volNo := 0, slotNo := 0, unique := 0 }

/-- Example contents of the caller's header buffer before a call. -/
def hdrBuf : List Int := [9, 9, 9, 9, 9, 9, 9, 9]

/-! ## Definitions for the properties of pins, errors and accounting -/

/-- The pins that the calls of a trace leave on the page `pid`: the number of successful
`BfM_GetTrain` calls on it minus the number of `BfM_FreeTrain` calls on it. -/
def pinBalance (pid : PageID) : List Event → Int
  | [] => 0
  | Event.BfM_GetTrain q e :: tr =>
    (if q = pid ∧ 0 ≤ e then 1 else 0) + pinBalance pid tr
  | Event.BfM_FreeTrain q :: tr => (if q = pid then -1 else 0) + pinBalance pid tr
  | _ :: tr => pinBalance pid tr

/-- The code returned by the call that an event records; `none` for `BfM_FreeTrain`, whose
code the sources do not read. -/
def Event.code : Event → Option Int
  | Event.BfM_GetTrain _ e => some e
  | Event.BfM_FreeTrain _ => none
  | Event.BfM_SetDirty _ e => some e
  | Event.om_RemoveFromAvailSpaceList _ e => some e
  | Event.om_PutInAvailSpaceList _ e => some e
  | Event.om_FileMapDeletePage _ e => some e
  | Event.Util_getElementFromPool e => some e

/-- The collaborators `K` with a `BfM_FreeTrain` that fails with the code `e`. -/
def withFailingRelease (K : Collab) (e : Int) : Collab :=
  { K with BfM_FreeTrain := fun _ => e }

/-- Example page 3 emptied by destroying its only object: only the entry of slot 0 belongs to
the slot array; the memory of the former entry of slot 1 still holds its stamp. -/
def pageEmptied : SlottedPage :=
  { header := exampleHdr 3 1 0 0 (-1) (-1)
    data := objA ++ List.replicate 16 0
    slot := [⟨-1, 0⟩, ⟨-1, 10⟩] }

/-- Example page 1 whose slot array has the entries 0 and 1, both empty: the state of
`pageOnlyTwo` after its only object, in slot 2, was destroyed. -/
def pageAllEmpty : SlottedPage :=
  { header := exampleHdr 1 2 12 20 (-1) (-1)
    data := objA ++ objB ++ List.replicate 16 0
    slot := [⟨-1, 0⟩, ⟨-1, 10⟩, ⟨-1, 11⟩] }

/-- Example file of four pages 1, 2, 3, 4 in chain order: pages 1, 2 and 4 have the contents
of `pageABC`, page 3 is `pageEmptied`. -/
def fileSkip : Collab :=
  exampleCollab [relink pageABC 1 2 (-1), relink pageABC 2 3 1, relink pageEmptied 3 4 2,
    relink pageABC 4 (-1) 3] 1 4 none

/-- Example file of three pages 1, 2, 3 in chain order: pages 1 and 3 have the contents of
`pageABC`, page 2 those of `pageTail` (one object in slot 1, an empty entry for slot 2). -/
def fileTrail : Collab :=
  exampleCollab [relink pageABC 1 2 (-1), relink pageTail 2 3 1, relink pageABC 3 (-1) 2]
    1 3 none

/-- Example file of one page, `pageAllEmpty`: no slot of the file holds an object. -/
def fileAllEmpty : Collab := exampleCollab [pageAllEmpty] 1 1 none

/-- The accounting inequality of a page for a data area and slot array of `pageSize` bytes:
`free + unused + nSlots * sizeof(SlottedPageSlot) <= pageSize`. -/
def PageAccounting (C : Consts) (pageSize : Int) (p : SlottedPage) : Prop :=
  p.header.free + p.header.unused + p.header.nSlots * (C.sizeofSlottedPageSlot : Int)
    ≤ pageSize

/-- The layout condition under which compaction is considered for the accounting: `free` is
not negative, every non-empty slot among `1 .. nSlots - 1` holds an object that occupies
at least `sizeof(obj->header) + sizeof(obj->data)` bytes inside `[0, free)`, and the
objects of two different slots do not overlap. -/
def LiveObjectsFit (C : Consts) (p : SlottedPage) : Prop :=
  0 ≤ p.header.free
  ∧ (∀ i ∈ liveSlots C p, 0 ≤ (slotAt p (i : Int)).offset
      ∧ (slotAt p (i : Int)).offset
          + ((C.sizeofObjectHdr : Int) + (C.sizeofObjectData : Int)) ≤ p.header.free)
  ∧ (∀ i ∈ liveSlots C p, ∀ j ∈ liveSlots C p, i ≠ j →
      (slotAt p (i : Int)).offset + ((C.sizeofObjectHdr : Int) + (C.sizeofObjectData : Int))
          ≤ (slotAt p (j : Int)).offset
      ∨ (slotAt p (j : Int)).offset
          + ((C.sizeofObjectHdr : Int) + (C.sizeofObjectData : Int))
          ≤ (slotAt p (i : Int)).offset)

/-- Example page 1 without spare room: the objects `objA`, `objB`, `objC` in slots 1, 2, 3 fill
the data area; with four slot entries of 8 bytes the page takes 80 bytes. -/
def pageFull : SlottedPage :=
  { header := exampleHdr 1 4 48 0 (-1) (-1)
    data := objA ++ objB ++ objC
    slot := [⟨-1, 0⟩, ⟨0, 10⟩, ⟨12, 11⟩, ⟨32, 12⟩] }

/-- Example page 1 whose last slot entry lies above `free`: the state of `pageABC` after
`EduOM_CompactPage` with slot 2 pinned (slots 1, 2, 3 at the offsets 0, 24, 12) and the
destruction of slot 3, which set `free` to 12 and `nSlots` to 3. -/
def pageAbove : SlottedPage :=
  { header := exampleHdr 1 3 12 0 (-1) (-1)
    data := (EduOM_CompactPage exampleConsts pageABC 2).data
    slot := [⟨-1, 0⟩, ⟨0, 10⟩, ⟨24, 11⟩, ⟨-1, 12⟩] }

/-- Example page 1 in the layout that a compaction with slot 2 pinned is meant to give to
`pageABC`: `objA` (slot 1) at offset 0, `objC` (slot 3) at offset 12, and the pinned
`objB` (slot 2) last, at offset 28, ending at `free = 48`. -/
def pagePinned : SlottedPage :=
  { header := exampleHdr 1 4 48 0 (-1) (-1)
    data := objA ++ objC ++ objB ++ List.replicate 16 0
    slot := [⟨-1, 0⟩, ⟨0, 10⟩, ⟨28, 11⟩, ⟨12, 12⟩] }

/-- Example file of one page, `pagePinned`, which is its first and last page. -/
def filePinned : Collab := exampleCollab [pagePinned] 1 1 none

/-- The layout condition "live objects lie below `free`": every non-empty slot among
`1 .. nSlots - 1` holds an object that lies entirely within `[0, free)`, its size being
taken from its own header (`objectSize`). -/
def LiveObjectsBelowFree (C : Consts) (p : SlottedPage) : Prop :=
  ∀ i ∈ liveSlots C p, 0 ≤ (slotAt p (i : Int)).offset
    ∧ (slotAt p (i : Int)).offset + objectSize C p (slotAt p (i : Int)).offset
        ≤ p.header.free

/-- Example page 1 with two objects of declared length 0 (8 bytes each, header only) in slots
1 and 2, which fill the data area; with three slot entries of 8 bytes the page takes 40
bytes. -/
def pageSmall : SlottedPage :=
  { header := exampleHdr 1 3 16 0 (-1) (-1)
    data := [0, 0, 5, 0, 0, 0, 0, 0] ++ [0, 0, 6, 0, 0, 0, 0, 0]
    slot := [⟨-1, 0⟩, ⟨0, 10⟩, ⟨8, 11⟩] }

/-- The slots for which `EduOM_CompactPage(apage, slotNo)` executes its copy statements, in
the order of execution: the non-empty slots among `1 .. nSlots - 1` (other than `slotNo`
when it is not `NIL`), then `slotNo` itself when it is not `NIL`. -/
def copiedSlots (C : Consts) (apage : SlottedPage) (slotNo : Int) : List Int :=
  if slotNo ≠ C.NIL then
    ((compactRange apage).filter (fun i : Nat =>
      decide (¬ ((slotAt apage (i : Int)).offset = C.EMPTYSLOT ∨ (i : Int) = slotNo)))).map
        (fun i : Nat => (i : Int)) ++ [slotNo]
  else
    ((compactRange apage).filter (fun i : Nat =>
      decide (¬ ((slotAt apage (i : Int)).offset = C.EMPTYSLOT)))).map
        (fun i : Nat => (i : Int))

/-- Example file `fileABC` whose `BfM_SetDirty` fails with -77. -/
def fileDirtyFails : Collab :=
  { fileABC none with BfM_SetDirty := fun _ => -77 }

/-- Example file of one page: `pageHole` compacted by `EduOM_CompactPage` with no pinned
slot. -/
def fileCompacted : Collab :=
  exampleCollab [EduOM_CompactPage exampleConsts pageHole exampleConsts.NIL] 1 1 none

/-! ## Lemmas on EduOM_DestroyObject -/

theorem setSlotOffset_header (p : SlottedPage) (i v : Int) :
    (setSlotOffset p i v).header = p.header := by
  unfold setSlotOffset; split <;> rfl

theorem destroyFinish_apage (C : Consts) (K : Collab) (cat o : ObjectID)
    (catEntry : sm_CatOverlayForData) (pid : PageID) (apage : SlottedPage)
    (dlHead : List DeallocListElem) (tr : List Event) :
    (destroyFinish C K cat o catEntry pid apage dlHead tr).apage = some apage := by
  unfold destroyFinish
  simp only
  split_ifs <;> rfl

/-- On the first page of the file, lines 137-158 leave the list of deferred deallocations as
it was, add no call of `om_FileMapDeletePage`, and return `eNOERROR` only after a
successful `om_PutInAvailSpaceList`. -/
theorem destroyFinish_first (C : Consts) (K : Collab) (cat o : ObjectID)
    (catEntry : sm_CatOverlayForData) (pid : PageID) (apage : SlottedPage)
    (dlHead : List DeallocListElem) (tr : List Event)
    (hfirst : o.pageNo = catEntry.firstPage) :
    (destroyFinish C K cat o catEntry pid apage dlHead tr).dlHead = dlHead
    ∧ ((∀ ev ∈ tr, ev.isFileMapDelete = false) →
        ∀ ev ∈ (destroyFinish C K cat o catEntry pid apage dlHead tr).trace,
          ev.isFileMapDelete = false)
    ∧ (0 ≤ C.eNOERROR →
        (destroyFinish C K cat o catEntry pid apage dlHead tr).ret = some C.eNOERROR →
        ∃ e, 0 ≤ e ∧ Event.om_PutInAvailSpaceList pid e
          ∈ (destroyFinish C K cat o catEntry pid apage dlHead tr).trace) := by
  unfold destroyFinish
  simp only [hfirst, ne_eq, not_true_eq_false, and_false, if_false]
  split_ifs with h4 h7
  · refine ⟨rfl, ?_, ?_⟩
    · intro h ev hev
      simp only [List.mem_append, List.mem_singleton] at hev
      rcases hev with (hev | rfl) | rfl
      · exact h ev hev
      · rfl
      · rfl
    · intro hC hr
      simp only [Option.some.injEq] at hr
      omega
  · refine ⟨rfl, ?_, ?_⟩
    · intro h ev hev
      simp only [List.mem_append, List.mem_singleton] at hev
      rcases hev with ((hev | rfl) | rfl) | rfl
      · exact h ev hev
      · rfl
      · rfl
      · rfl
    · intro hC hr
      simp only [Option.some.injEq] at hr
      omega
  · refine ⟨rfl, ?_, ?_⟩
    · intro h ev hev
      simp only [List.mem_append, List.mem_singleton] at hev
      rcases hev with ((hev | rfl) | rfl) | rfl
      · exact h ev hev
      · rfl
      · rfl
      · rfl
    · intro _ _
      exact ⟨_, not_lt.mp h7, by simp⟩

/-- Lines 137-158 return `eNOERROR` when the calls they make succeed. -/
theorem destroyFinish_returns (C : Consts) (K : Collab) (cat o : ObjectID)
    (catEntry : sm_CatOverlayForData) (pid : PageID) (apage : SlottedPage)
    (dlHead : List DeallocListElem) (tr : List Event)
    (h4 : 0 ≤ K.BfM_SetDirty pid) (h5 : 0 ≤ K.om_FileMapDeletePage cat pid)
    (h6 : 0 ≤ K.Util_getElementFromPool) (h7 : 0 ≤ K.om_PutInAvailSpaceList cat pid apage) :
    (destroyFinish C K cat o catEntry pid apage dlHead tr).ret = some C.eNOERROR := by
  unfold destroyFinish
  simp only [not_lt.mpr h4, not_lt.mpr h5, not_lt.mpr h6, not_lt.mpr h7, if_false]
  split_ifs <;> rfl

/-- Destroying the last entry of the slot array returns `eNOERROR` whenever the calls to the
other modules succeed: the stray read of the interior branch is not executed. -/
theorem destroy_last_entry_returns (C : Consts) (K : Collab) (cat o : ObjectID)
    (dlHead : List DeallocListElem)
    (h1 : 0 ≤ (K.BfM_GetTrain ⟨cat.pageNo, cat.volNo⟩).1)
    (h2 : 0 ≤ (K.BfM_GetTrain ⟨o.pageNo, o.volNo⟩).1)
    (h3 : ∀ p, 0 ≤ K.om_RemoveFromAvailSpaceList cat ⟨o.pageNo, o.volNo⟩ p)
    (h4 : 0 ≤ K.BfM_SetDirty ⟨o.pageNo, o.volNo⟩)
    (h5 : 0 ≤ K.om_FileMapDeletePage cat ⟨o.pageNo, o.volNo⟩)
    (h6 : 0 ≤ K.Util_getElementFromPool)
    (h7 : ∀ p, 0 ≤ K.om_PutInAvailSpaceList cat ⟨o.pageNo, o.volNo⟩ p)
    (hlast : o.slotNo + 1 = (K.BfM_GetTrain ⟨o.pageNo, o.volNo⟩).2.header.nSlots) :
    (EduOM_DestroyObject C K (some cat) (some o) dlHead).ret = some C.eNOERROR := by
  simp only [EduOM_DestroyObject, destroyBody, not_lt.mpr h1, not_lt.mpr h2,
    not_lt.mpr (h3 _), if_false, destroyUpdate, setSlotOffset_header, hlast, if_true]
  exact destroyFinish_returns C K cat o _ _ _ dlHead _ h4 h5 h6 (h7 _)

/-- Lines 137-158 return the code of the first failed call: if no call before them failed,
any recorded call with a negative code gives the returned code. -/
theorem destroyFinish_propagates (C : Consts) (K : Collab) (cat o : ObjectID)
    (catEntry : sm_CatOverlayForData) (pid : PageID) (apage : SlottedPage)
    (dlHead : List DeallocListElem) (tr : List Event)
    (htr : ∀ ev ∈ tr, ∀ e, ev.code = some e → 0 ≤ e)
    (ev : Event) (e : Int)
    (hev : ev ∈ (destroyFinish C K cat o catEntry pid apage dlHead tr).trace)
    (hcode : ev.code = some e) (hneg : e < 0) :
    (destroyFinish C K cat o catEntry pid apage dlHead tr).ret = some e := by
  unfold destroyFinish at hev ⊢
  simp only at hev ⊢
  split_ifs at hev ⊢ with h4 hb h5 h6 h7
  · simp only [List.mem_append, List.mem_singleton] at hev
    rcases hev with (hev | hev) | hev
    · have := htr ev hev e hcode; omega
    · subst hev; simp only [Event.code, Option.some.injEq] at hcode; subst hcode; rfl
    · subst hev; simp [Event.code] at hcode
  · simp only [List.mem_append, List.mem_singleton] at hev
    rcases hev with ((hev | hev) | hev) | hev
    · have := htr ev hev e hcode; omega
    · subst hev; simp only [Event.code, Option.some.injEq] at hcode; omega
    · subst hev; simp only [Event.code, Option.some.injEq] at hcode; subst hcode; rfl
    · subst hev; simp [Event.code] at hcode
  · simp only [List.mem_append, List.mem_singleton] at hev
    rcases hev with (((hev | hev) | hev) | hev) | hev
    · have := htr ev hev e hcode; omega
    · subst hev; simp only [Event.code, Option.some.injEq] at hcode; omega
    · subst hev; simp only [Event.code, Option.some.injEq] at hcode; omega
    · subst hev; simp only [Event.code, Option.some.injEq] at hcode; subst hcode; rfl
    · subst hev; simp [Event.code] at hcode
  · simp only [List.mem_append, List.mem_singleton] at hev
    rcases hev with (((hev | hev) | hev) | hev) | hev
    · have := htr ev hev e hcode; omega
    · subst hev; simp only [Event.code, Option.some.injEq] at hcode; omega
    · subst hev; simp only [Event.code, Option.some.injEq] at hcode; omega
    · subst hev; simp only [Event.code, Option.some.injEq] at hcode; omega
    · subst hev; simp [Event.code] at hcode
  · simp only [List.mem_append, List.mem_singleton] at hev
    rcases hev with ((hev | hev) | hev) | hev
    · have := htr ev hev e hcode; omega
    · subst hev; simp only [Event.code, Option.some.injEq] at hcode; omega
    · subst hev; simp only [Event.code, Option.some.injEq] at hcode; subst hcode; rfl
    · subst hev; simp [Event.code] at hcode
  · simp only [List.mem_append, List.mem_singleton] at hev
    rcases hev with ((hev | hev) | hev) | hev
    · have := htr ev hev e hcode; omega
    · subst hev; simp only [Event.code, Option.some.injEq] at hcode; omega
    · subst hev; simp only [Event.code, Option.some.injEq] at hcode; omega
    · subst hev; simp [Event.code] at hcode

/-- The page buffer after a successful call of `EduOM_DestroyObject`: the fetched page with
the slot marked empty and the header updated by lines 126-135. -/
theorem destroy_success_page (C : Consts) (K : Collab) (cat o : ObjectID)
    (dlHead : List DeallocListElem) (hC : 0 ≤ C.eNOERROR)
    (hret : (EduOM_DestroyObject C K (some cat) (some o) dlHead).ret = some C.eNOERROR) :
    ∃ q, destroyUpdate C K
          (setSlotOffset (K.BfM_GetTrain ⟨o.pageNo, o.volNo⟩).2 o.slotNo C.EMPTYSLOT)
          o.slotNo (slotAt (K.BfM_GetTrain ⟨o.pageNo, o.volNo⟩).2 o.slotNo).offset = some q
      ∧ (EduOM_DestroyObject C K (some cat) (some o) dlHead).apage = some q := by
  simp only [EduOM_DestroyObject, destroyBody] at hret ⊢
  split_ifs at hret ⊢ with h1 h2 h3
  · simp at hret; omega
  · simp at hret; omega
  · simp at hret; omega
  · split at hret
    · simp at hret
    · next q hq =>
      exact ⟨q, hq, destroyFinish_apage _ _ _ _ _ _ _ _ _⟩

/-! ## Lemmas on EduOM_NextObject -/

/-- More fuel does not change a result of the loop of the branch `curOID == NULL`. -/
theorem nextFromStart_fuel_mono (C : Consts) (K : Collab) (volNo : Int) (nextOID : ObjectID)
    (objHdr : Option (List Int)) (r : NextResult) :
    ∀ (fuel : Nat) (pageNo : Int) (tr : List Event),
      nextFromStart C K volNo nextOID objHdr fuel pageNo tr = some r →
      ∀ k, nextFromStart C K volNo nextOID objHdr (fuel + k) pageNo tr = some r := by
  intro fuel
  induction fuel with
  | zero =>
    intro pageNo tr h k
    unfold nextFromStart at h
    split_ifs at h with hp
    cases k with
    | zero => simpa [nextFromStart, hp] using h
    | succ k => simpa [nextFromStart, hp] using h
  | succ fuel ih =>
    intro pageNo tr h k
    rw [Nat.add_right_comm]
    unfold nextFromStart at h ⊢
    simp only at h ⊢
    split_ifs at h ⊢ with hp he hn
    · exact h
    · exact ih _ _ h k
    · exact h
    · exact h

/-- More fuel does not change a result of the first page-locating loop. -/
theorem nextWalk_fuel_mono (K : Collab) (volNo curPageNo : Int) (w : WalkResult) :
    ∀ (fuel : Nat) (pageNo : Int) (tr : List Event),
      nextWalk K volNo curPageNo fuel pageNo tr = some w →
      ∀ k, nextWalk K volNo curPageNo (fuel + k) pageNo tr = some w := by
  intro fuel
  induction fuel with
  | zero => intro pageNo tr h; simp [nextWalk] at h
  | succ fuel ih =>
    intro pageNo tr h k
    rw [Nat.add_right_comm]
    unfold nextWalk at h ⊢
    simp only at h ⊢
    split_ifs at h ⊢ with he hn
    · exact h
    · exact ih _ _ h k
    · exact h

/-- More fuel does not change a result of the second page-locating loop. -/
theorem nextLocate_fuel_mono (K : Collab) (volNo curPageNo : Int) (w : WalkResult) :
    ∀ (fuel : Nat) (pageNo : Int) (tr : List Event),
      nextLocate K volNo curPageNo fuel pageNo tr = some w →
      ∀ k, nextLocate K volNo curPageNo (fuel + k) pageNo tr = some w := by
  intro fuel
  induction fuel with
  | zero => intro pageNo tr h; simp [nextLocate] at h
  | succ fuel ih =>
    intro pageNo tr h k
    rw [Nat.add_right_comm]
    unfold nextLocate at h ⊢
    simp only at h ⊢
    split_ifs at h ⊢ with he hn
    · exact h
    · exact h
    · exact ih _ _ h k

/-- More fuel does not change a result of `EduOM_NextObject`: a result obtained with some
bound on the loops is the result of the call. -/
theorem EduOM_NextObject_fuel_mono (C : Consts) (K : Collab) (fuel : Nat)
    (catObjForFile curOID nextOID : Option ObjectID) (objHdr : Option (List Int))
    (r : NextResult)
    (h : EduOM_NextObject C K fuel catObjForFile curOID nextOID objHdr = some r) (k : Nat) :
    EduOM_NextObject C K (fuel + k) catObjForFile curOID nextOID objHdr = some r := by
  cases catObjForFile with
  | none => simpa [EduOM_NextObject] using h
  | some cat =>
  cases nextOID with
  | none => simpa [EduOM_NextObject] using h
  | some nxt =>
  simp only [EduOM_NextObject] at h ⊢
  split_ifs at h ⊢ with he
  · exact h
  · cases curOID with
    | none => exact nextFromStart_fuel_mono _ _ _ _ _ _ _ _ _ h k
    | some cur =>
      simp only at h ⊢
      unfold nextFromCurrent at h ⊢
      split at h
      · simp at h
      · next e tr1 hw => rw [nextWalk_fuel_mono _ _ _ _ _ _ _ hw k]; exact h
      · next ap pn tr1 hw =>
        rw [nextWalk_fuel_mono _ _ _ _ _ _ _ hw k]
        simp only
        split at h
        · simp at h
        · next e tr2 hl => rw [nextLocate_fuel_mono _ _ _ _ _ _ _ hl k]; exact h
        · next ap2 pn2 tr2 hl => rw [nextLocate_fuel_mono _ _ _ _ _ _ _ hl k]; exact h

/-- The loop of the branch `curOID == NULL` never stores into the caller's header buffer. -/
theorem nextFromStart_objHdr (C : Consts) (K : Collab) (volNo : Int) (nextOID : ObjectID)
    (objHdr : Option (List Int)) (r : NextResult) :
    ∀ (fuel : Nat) (pageNo : Int) (tr : List Event),
      nextFromStart C K volNo nextOID objHdr fuel pageNo tr = some r → r.objHdr = objHdr := by
  intro fuel
  induction fuel with
  | zero =>
    intro pageNo tr h
    unfold nextFromStart at h
    split_ifs at h with hp
    simp only [Option.some.injEq] at h
    rw [← h]
  | succ fuel ih =>
    intro pageNo tr h
    unfold nextFromStart at h
    simp only at h
    split_ifs at h with hp he hn
    · simp only [Option.some.injEq] at h; rw [← h]
    · exact ih _ _ h
    · simp only [Option.some.injEq] at h; rw [← h]
    · simp only [Option.some.injEq] at h; rw [← h]

/-- Lines 140-158 never store into the caller's header buffer. -/
theorem nextAfterLocate_objHdr (C : Consts) (K : Collab) (cat cur : ObjectID)
    (catEntry : sm_CatOverlayForData) (nextOID : ObjectID) (objHdr : Option (List Int))
    (apage : SlottedPage) (pageNo : Int) (tr : List Event) :
    (nextAfterLocate C K cat cur catEntry nextOID objHdr apage pageNo tr).objHdr = objHdr := by
  unfold nextAfterLocate
  simp only
  split_ifs <;> rfl

/-- When the current slot is not the last entry of the slot array of its page, lines 140-158
store nothing and return `EOS`. -/
theorem nextAfterLocate_not_last (C : Consts) (K : Collab) (cat cur : ObjectID)
    (catEntry : sm_CatOverlayForData) (nextOID : ObjectID) (objHdr : Option (List Int))
    (apage : SlottedPage) (pageNo : Int) (tr : List Event)
    (h : cur.slotNo + 1 ≠ apage.header.nSlots) :
    nextAfterLocate C K cat cur catEntry nextOID objHdr apage pageNo tr
      = { ret := C.EOS, nextOID := some nextOID, objHdr := objHdr
          trace := tr ++ [Event.BfM_FreeTrain ⟨cat.pageNo, cat.volNo⟩] } := by
  unfold nextAfterLocate
  simp only [h, if_false]

/-- No call of `EduOM_NextObject` stores into the caller's header buffer: after the call the
buffer holds what it held before. -/
theorem EduOM_NextObject_objHdr (C : Consts) (K : Collab) (fuel : Nat)
    (catObjForFile curOID nextOID : Option ObjectID) (objHdr : Option (List Int))
    (r : NextResult)
    (h : EduOM_NextObject C K fuel catObjForFile curOID nextOID objHdr = some r) :
    r.objHdr = objHdr := by
  cases catObjForFile with
  | none => simp only [EduOM_NextObject, Option.some.injEq] at h; rw [← h]
  | some cat =>
  cases nextOID with
  | none => simp only [EduOM_NextObject, Option.some.injEq] at h; rw [← h]
  | some nxt =>
  simp only [EduOM_NextObject] at h
  split_ifs at h with he
  · simp only [Option.some.injEq] at h; rw [← h]
  · cases curOID with
    | none => exact nextFromStart_objHdr _ _ _ _ _ _ _ _ _ h
    | some cur =>
      simp only at h
      unfold nextFromCurrent at h
      split at h
      · simp at h
      · simp only [Option.some.injEq] at h; rw [← h]
      · split at h
        · simp at h
        · simp only [Option.some.injEq] at h; rw [← h]
        · simp only [Option.some.injEq] at h
          rw [← h]
          exact nextAfterLocate_objHdr _ _ _ _ _ _ _ _ _ _

/-! ## Lemmas on EduOM_CompactPage -/

/-- A value in the range of `Two` is not changed by the conversion to `Two`. -/
theorem wrapTwo_of_range (x : Int) (h1 : -32768 ≤ x) (h2 : x ≤ 32767) : wrapTwo x = x := by
  unfold wrapTwo; omega

/-- A store into the data area leaves the header as it was. -/
theorem setData_header (p : SlottedPage) (i v : Int) : (setData p i v).header = p.header := by
  unfold setData; split <;> rfl

/-- A store into the data area leaves the slot array as it was. -/
theorem slotAt_setData (p : SlottedPage) (i v k : Int) :
    slotAt (setData p i v) k = slotAt p k := by
  unfold setData; split <;> rfl

/-- After a store of `v` into the offset of a slot, the offset of any slot is `v` or the entry
is what it was. -/
theorem slotAt_setSlotOffset (p : SlottedPage) (i v k : Int) :
    (slotAt (setSlotOffset p i v) k).offset = v
    ∨ slotAt (setSlotOffset p i v) k = slotAt p k := by
  unfold setSlotOffset
  by_cases hi : 0 ≤ i
  · simp only [hi, if_true]
    by_cases hk : 0 ≤ k
    · by_cases hik : i.toNat = k.toNat
      · by_cases hlen : i.toNat < p.slot.length
        · left
          simp [slotAt, hk, List.getD_eq_getElem?_getD, List.getElem?_set, hlen, ← hik]
        · right
          have hlen2 : p.slot.length ≤ i.toNat := by omega
          simp [slotAt, hk, List.getD_eq_getElem?_getD, List.getElem?_set, hlen, ← hik,
            List.getElem?_eq_none hlen2]
      · right
        simp [slotAt, hk, List.getD_eq_getElem?_getD, List.getElem?_set, hik]
    · right
      simp [slotAt, hk]
  · right
    simp [hi]

/-- A store into the offset of slot `i` leaves the entries of the other slots as they
were. -/
theorem slotAt_setSlotOffset_ne (p : SlottedPage) (i v k : Int) (h : k ≠ i) :
    slotAt (setSlotOffset p i v) k = slotAt p k := by
  unfold setSlotOffset
  by_cases hi : 0 ≤ i
  · simp only [hi, if_true]
    by_cases hk : 0 ≤ k
    · have hik : i.toNat ≠ k.toNat := by omega
      simp [slotAt, hk, List.getD_eq_getElem?_getD, List.getElem?_set, hik]
    · simp [slotAt, hk]
  · simp [hi]

/-- The counter `lastSlot` after a loop of `EduOM_CompactPage` over the slots `l`, `q` being
the `continue` test: it has grown by the number of slots that were copied. -/
theorem compactFold_lastSlot (C : Consts) (t : SlottedPage) (q : Nat → Prop)
    [DecidablePred q] :
    ∀ (l : List Nat) (st : CompactState),
      0 ≤ st.lastSlot → st.lastSlot + (l.length : Int) ≤ 32767 →
      (l.foldl (fun st i => if q i then st else compactCopy C t st i) st).lastSlot
        = st.lastSlot + ((l.filter (fun i => decide (¬ q i))).length : Int) := by
  intro l
  induction l with
  | nil => intro st _ _; simp
  | cons a l ih =>
    intro st h0 hb
    simp only [List.foldl_cons, List.length_cons, Nat.cast_add, Nat.cast_one] at hb ⊢
    by_cases hq : q a
    · simp only [hq, if_true, not_true_eq_false, decide_False, Bool.false_eq_true,
        not_false_eq_true, List.filter_cons_of_neg]
      exact ih st h0 (by omega)
    · have hw : wrapTwo (st.lastSlot + 1) = st.lastSlot + 1 :=
        wrapTwo_of_range _ (by omega) (by omega)
      simp only [hq, if_false, not_false_eq_true, decide_True, List.filter_cons_of_pos,
        List.length_cons, Nat.cast_add, Nat.cast_one]
      rw [ih (compactCopy C t st a) (by simp only [compactCopy, hw]; omega)
        (by simp only [compactCopy, hw]; omega)]
      simp only [compactCopy, hw]
      omega

/-- The cursor and the page after a loop of `EduOM_CompactPage` over the slots `l`, `q` being
the `continue` test, when the cursor stays in the range of `Two`: the cursor has grown
by `sizeof(obj->header) + sizeof(obj->data)` for every copied slot, the header is as it
was, and every slot offset is what it was or a value of the cursor. -/
theorem compactFold_cursor (C : Consts) (t : SlottedPage) (q : Nat → Prop)
    [DecidablePred q] :
    ∀ (l : List Nat) (st : CompactState),
      0 ≤ st.apageDataOffset →
      st.apageDataOffset + ((l.filter (fun i => decide (¬ q i))).length : Int)
          * ((C.sizeofObjectHdr : Int) + (C.sizeofObjectData : Int)) ≤ 32767 →
      (l.foldl (fun st i => if q i then st else compactCopy C t st i) st).apageDataOffset
        = st.apageDataOffset + ((l.filter (fun i => decide (¬ q i))).length : Int)
            * ((C.sizeofObjectHdr : Int) + (C.sizeofObjectData : Int))
      ∧ (l.foldl (fun st i => if q i then st else compactCopy C t st i) st).apage.header
        = st.apage.header
      ∧ ∀ k : Int,
          (slotAt (l.foldl (fun st i => if q i then st else compactCopy C t st i)
            st).apage k).offset = (slotAt st.apage k).offset
          ∨ 0 ≤ (slotAt (l.foldl (fun st i => if q i then st else compactCopy C t st i)
            st).apage k).offset := by
  intro l
  induction l with
  | nil => intro st _ _; simp
  | cons a l ih =>
    intro st h0 hb
    simp only [List.foldl_cons]
    by_cases hq : q a
    · simp only [hq, if_true, not_true_eq_false, decide_False, Bool.false_eq_true,
        not_false_eq_true, List.filter_cons_of_neg] at hb ⊢
      exact ih st h0 hb
    · simp only [hq, if_false, not_false_eq_true, decide_True, List.filter_cons_of_pos,
        List.length_cons, Nat.cast_add, Nat.cast_one] at hb ⊢
      have hlen : (0 : Int) ≤ ((l.filter (fun i => decide (¬ q i))).length : Int)
          * ((C.sizeofObjectHdr : Int) + (C.sizeofObjectData : Int)) := by positivity
      have hsz : (0 : Int) ≤ (C.sizeofObjectHdr : Int) + (C.sizeofObjectData : Int) := by
        positivity
      have hexp : (((l.filter (fun i => decide (¬ q i))).length : Int) + 1)
          * ((C.sizeofObjectHdr : Int) + (C.sizeofObjectData : Int))
          = ((l.filter (fun i => decide (¬ q i))).length : Int)
            * ((C.sizeofObjectHdr : Int) + (C.sizeofObjectData : Int))
            + ((C.sizeofObjectHdr : Int) + (C.sizeofObjectData : Int)) := by ring
      rw [hexp] at hb ⊢
      have hw : wrapTwo (st.apageDataOffset
          + ((C.sizeofObjectHdr : Int) + (C.sizeofObjectData : Int)))
          = st.apageDataOffset + ((C.sizeofObjectHdr : Int) + (C.sizeofObjectData : Int)) :=
        wrapTwo_of_range _ (by omega) (by omega)
      have hoff : (compactCopy C t st a).apageDataOffset
          = st.apageDataOffset + ((C.sizeofObjectHdr : Int) + (C.sizeofObjectData : Int)) := by
        simp only [compactCopy, hw]
      have hhdr : (compactCopy C t st a).apage.header = st.apage.header := by
        simp only [compactCopy, setSlotOffset_header, setData_header]
      obtain ⟨i1, i2, i3⟩ := ih (compactCopy C t st a) (by rw [hoff]; omega)
        (by rw [hoff]; omega)
      refine ⟨by rw [i1, hoff]; omega, by rw [i2, hhdr], ?_⟩
      intro k
      rcases i3 k with h | h
      · rw [h]
        rcases slotAt_setSlotOffset
          (setData st.apage st.apageDataOffset (dataAt t (slotAt t (a : Int)).offset))
          (a : Int) st.apageDataOffset k with h2 | h2
        · right; simp only [compactCopy]; rw [h2]; exact h0
        · left; simp only [compactCopy]; rw [h2, slotAt_setData]
      · right; exact h

/-- A duplicate-free list of numbers between 1 and `m` that misses one of them has fewer
than `m` elements. -/
theorem length_lt_of_missing (l : List Nat) (hl : l.Nodup) (m i : Nat)
    (hi1 : 1 ≤ i) (him : i ≤ m) (h : ∀ x ∈ l, 1 ≤ x ∧ x ≤ m ∧ x ≠ i) :
    l.length + 1 ≤ m := by
  have hsub : l.toFinset ⊆ (Finset.Icc 1 m).erase i := by
    intro x hx
    rw [List.mem_toFinset] at hx
    have := h x hx
    simp only [Finset.mem_erase, Finset.mem_Icc]
    omega
  have hcard := Finset.card_le_card hsub
  rw [List.toFinset_card_of_nodup hl,
    Finset.card_erase_of_mem (by simp only [Finset.mem_Icc]; omega)] at hcard
  simp only [Nat.card_Icc] at hcard
  omega

/-- In a duplicate-free list, a test `f` that differs from the test `g` only by rejecting
one element `s` that `g` accepts selects one element less than `g`. -/
theorem filter_length_remove_one (f g : Nat → Bool) (s : Nat) (hg : g s = true)
    (hf : f s = false) (hfg : ∀ x, x ≠ s → f x = g x) :
    ∀ (l : List Nat), l.Nodup → s ∈ l →
      (l.filter f).length + 1 = (l.filter g).length := by
  intro l
  induction l with
  | nil => intro _ h; simp at h
  | cons a l ih =>
    intro hl hs
    rw [List.nodup_cons] at hl
    by_cases has : a = s
    · subst has
      have hcongr : l.filter f = l.filter g :=
        List.filter_congr (fun x hx => hfg x (fun h => hl.1 (h ▸ hx)))
      rw [List.filter_cons_of_neg (by simp [hf]), List.filter_cons_of_pos hg, hcongr,
        List.length_cons]
    · have hs2 : s ∈ l := by
        rcases List.mem_cons.mp hs with h | h
        · exact absurd h.symm has
        · exact h
      have hrec := ih hl.2 hs2
      by_cases hga : g a = true
      · rw [List.filter_cons_of_pos hga, List.filter_cons_of_pos (by rw [hfg a has]; exact hga),
          List.length_cons, List.length_cons, hrec]
      · rw [List.filter_cons_of_neg hga, List.filter_cons_of_neg (by rw [hfg a has]; exact hga),
          hrec]

/-- The number of slots visited by a loop of `EduOM_CompactPage`. -/
theorem compactRange_length (p : SlottedPage) :
    (compactRange p).length = p.header.nSlots.toNat - 1 := by
  simp [compactRange]

/-- The conversion to `Two` gives a value in the range of `Two`. -/
theorem wrapTwo_range (x : Int) : -32768 ≤ wrapTwo x ∧ wrapTwo x ≤ 32767 := by
  unfold wrapTwo; omega

/-- Converting an intermediate sum to `Two` does not change the converted final sum. -/
theorem wrapTwo_add_wrapTwo (a b : Int) : wrapTwo (wrapTwo a + b) = wrapTwo (a + b) := by
  unfold wrapTwo; omega

/-- The counter `lastSlot` after a loop of `EduOM_CompactPage` over the slots `l`, `q` being
the `continue` test, without any bound on the page: it is the number of slots that were
copied, added to its initial value and converted to `Two`. -/
theorem compactFold_lastSlot_wrap (C : Consts) (t : SlottedPage) (q : Nat → Prop)
    [DecidablePred q] :
    ∀ (l : List Nat) (st : CompactState),
      -32768 ≤ st.lastSlot → st.lastSlot ≤ 32767 →
      (l.foldl (fun st i => if q i then st else compactCopy C t st i) st).lastSlot
        = wrapTwo (st.lastSlot + ((l.filter (fun i => decide (¬ q i))).length : Int)) := by
  intro l
  induction l with
  | nil => intro st h1 h2; simp [wrapTwo_of_range _ h1 h2]
  | cons a l ih =>
    intro st h1 h2
    simp only [List.foldl_cons]
    by_cases hq : q a
    · simp only [hq, if_true, not_true_eq_false, decide_False, Bool.false_eq_true,
        not_false_eq_true, List.filter_cons_of_neg]
      exact ih st h1 h2
    · simp only [hq, if_false, not_false_eq_true, decide_True, List.filter_cons_of_pos,
        List.length_cons, Nat.cast_add, Nat.cast_one]
      rw [ih (compactCopy C t st a) (wrapTwo_range _).1 (wrapTwo_range _).2]
      simp only [compactCopy]
      rw [wrapTwo_add_wrapTwo]
      congr 1
      omega

/-- After `EduOM_CompactPage`, `nSlots` is one plus the number of slots copied, converted to
`Two`. -/
theorem EduOM_CompactPage_nSlots_wrap (C : Consts) (p : SlottedPage) (slotNo : Int) :
    (EduOM_CompactPage C p slotNo).header.nSlots
      = wrapTwo (1 + ((copiedSlots C p slotNo).length : Int)) := by
  by_cases hs : slotNo = C.NIL
  · have h : ((compactRange p).foldl (compactBodyAll C p)
        { apage := p, apageDataOffset := 0, lastSlot := 0 }).lastSlot
        = wrapTwo (0 + (((compactRange p).filter (fun i : Nat =>
            decide (¬ ((slotAt p (i : Int)).offset = C.EMPTYSLOT)))).length : Int)) :=
      compactFold_lastSlot_wrap C p
        (fun i : Nat => (slotAt p (i : Int)).offset = C.EMPTYSLOT)
        (compactRange p) { apage := p, apageDataOffset := 0, lastSlot := 0 }
        (by norm_num) (by norm_num)
    simp only [EduOM_CompactPage, compactLoops, copiedSlots, hs, ne_eq, not_true_eq_false,
      if_false, List.length_map]
    rw [h, wrapTwo_add_wrapTwo]
    congr 1
    omega
  · have h : ((compactRange p).foldl (compactBodyPinned C p slotNo)
        { apage := p, apageDataOffset := 0, lastSlot := 0 }).lastSlot
        = wrapTwo (0 + (((compactRange p).filter (fun i : Nat => decide
            (¬ ((slotAt p (i : Int)).offset = C.EMPTYSLOT ∨ (i : Int) = slotNo)))).length
              : Int)) :=
      compactFold_lastSlot_wrap C p
        (fun i : Nat => (slotAt p (i : Int)).offset = C.EMPTYSLOT ∨ (i : Int) = slotNo)
        (compactRange p) { apage := p, apageDataOffset := 0, lastSlot := 0 }
        (by norm_num) (by norm_num)
    simp only [EduOM_CompactPage, compactLoops, copiedSlots, hs, ne_eq, not_false_eq_true,
      if_true, List.length_append, List.length_map, List.length_singleton, compactPinnedLast]
    rw [h, wrapTwo_add_wrapTwo, add_assoc, wrapTwo_add_wrapTwo]
    congr 1
    push_cast
    omega

/-- After `EduOM_CompactPage` that copied at most 32766 slots, `nSlots` is one plus the number
of slots copied. -/
theorem EduOM_CompactPage_nSlots (C : Consts) (p : SlottedPage) (slotNo : Int)
    (hc : (copiedSlots C p slotNo).length ≤ 32766) :
    (EduOM_CompactPage C p slotNo).header.nSlots
      = 1 + ((copiedSlots C p slotNo).length : Int) := by
  rw [EduOM_CompactPage_nSlots_wrap]
  exact wrapTwo_of_range _ (by omega) (by omega)

/-- Membership in the range of slots visited by the loops of `EduOM_CompactPage`. -/
theorem mem_compactRange (p : SlottedPage) (i : Nat) :
    i ∈ compactRange p ↔ 1 ≤ i ∧ (i : Int) < p.header.nSlots := by
  simp only [compactRange, List.mem_range'_1]
  omega

/-- With no pinned slot, or with a pinned slot that is a non-empty slot of the page,
`EduOM_CompactPage` copies as many slots as the page has non-empty slots. -/
theorem copiedSlots_length (C : Consts) (p : SlottedPage) (slotNo : Int)
    (hs : slotNo = C.NIL ∨ (1 ≤ slotNo ∧ slotNo < p.header.nSlots
      ∧ (slotAt p slotNo).offset ≠ C.EMPTYSLOT)) :
    (copiedSlots C p slotNo).length = (liveSlots C p).length := by
  have hlive : liveSlots C p = (compactRange p).filter
      (fun i : Nat => decide (¬ ((slotAt p (i : Int)).offset = C.EMPTYSLOT))) := rfl
  by_cases hnil : slotNo = C.NIL
  · simp only [copiedSlots, hnil, ne_eq, not_true_eq_false, if_false, List.length_map, hlive]
  · rcases hs with hs | ⟨h1, h2, h3⟩
    · exact absurd hs hnil
    · simp only [copiedSlots, hnil, ne_eq, not_false_eq_true, if_true, List.length_append,
        List.length_map, List.length_singleton, hlive]
      have hmem : slotNo.toNat ∈ compactRange p := by
        rw [mem_compactRange]; omega
      have hcast : ((slotNo.toNat : Nat) : Int) = slotNo := by omega
      refine filter_length_remove_one _ _ slotNo.toNat ?_ ?_ ?_ (compactRange p)
        (List.nodup_range' _ _) hmem
      · simp only [hcast]; simpa using h3
      · simp only [hcast]; simp
      · intro x hx
        have : (x : Int) ≠ slotNo := by omega
        simp [this]

/-- The state at the end of the loops of `EduOM_CompactPage` when no cursor value leaves the
range of `Two`: the cursor is the number of slots copied by the loop times
`sizeof(obj->header) + sizeof(obj->data)`, plus `sizeof(obj)` when a slot is pinned; the
header is untouched; every slot offset is what it was or a cursor value, which is not
negative. -/
theorem compactLoops_cursor_of_bound (C : Consts) (p : SlottedPage) (slotNo : Int)
    (hb : ((copiedSlots C p slotNo).length : Int)
        * ((C.sizeofObjectHdr : Int) + (C.sizeofObjectData : Int))
      + (C.sizeofObjectPtr : Int) ≤ 32767) :
    (compactLoops C p slotNo).apageDataOffset
      = (if slotNo ≠ C.NIL then
          (((copiedSlots C p slotNo).length : Int) - 1)
            * ((C.sizeofObjectHdr : Int) + (C.sizeofObjectData : Int))
            + (C.sizeofObjectPtr : Int)
        else
          ((copiedSlots C p slotNo).length : Int)
            * ((C.sizeofObjectHdr : Int) + (C.sizeofObjectData : Int)))
    ∧ (compactLoops C p slotNo).apage.header = p.header
    ∧ ∀ k : Int, (slotAt (compactLoops C p slotNo).apage k).offset = (slotAt p k).offset
        ∨ 0 ≤ (slotAt (compactLoops C p slotNo).apage k).offset := by
  have hsz : (0 : Int) ≤ (C.sizeofObjectHdr : Int) + (C.sizeofObjectData : Int) := by
    positivity
  have hptr : (0 : Int) ≤ (C.sizeofObjectPtr : Int) := by positivity
  by_cases hs : slotNo = C.NIL
  · simp only [copiedSlots, hs, ne_eq, not_true_eq_false, if_false, List.length_map] at hb
    have h := compactFold_cursor C p (fun i : Nat => (slotAt p (i : Int)).offset = C.EMPTYSLOT)
      (compactRange p) { apage := p, apageDataOffset := 0, lastSlot := 0 } (le_refl _)
      (by simp only at hb ⊢
          omega)
    have h' : ((compactRange p).foldl (compactBodyAll C p)
        { apage := p, apageDataOffset := 0, lastSlot := 0 }).apageDataOffset
        = 0 + (((compactRange p).filter (fun i : Nat =>
            decide (¬ ((slotAt p (i : Int)).offset = C.EMPTYSLOT)))).length : Int)
            * ((C.sizeofObjectHdr : Int) + (C.sizeofObjectData : Int))
      ∧ ((compactRange p).foldl (compactBodyAll C p)
          { apage := p, apageDataOffset := 0, lastSlot := 0 }).apage.header = p.header
      ∧ ∀ k : Int, (slotAt ((compactRange p).foldl (compactBodyAll C p)
          { apage := p, apageDataOffset := 0, lastSlot := 0 }).apage k).offset
            = (slotAt p k).offset
          ∨ 0 ≤ (slotAt ((compactRange p).foldl (compactBodyAll C p)
            { apage := p, apageDataOffset := 0, lastSlot := 0 }).apage k).offset := h
    simp only [compactLoops, copiedSlots, hs, ne_eq, not_true_eq_false, if_false,
      List.length_map]
    refine ⟨by rw [h'.1]; omega, h'.2.1, h'.2.2⟩
  · simp only [copiedSlots, hs, ne_eq, not_false_eq_true, if_true, List.length_append,
      List.length_map, List.length_singleton, Nat.cast_add, Nat.cast_one] at hb
    have hexp : ((((compactRange p).filter (fun i : Nat => decide
          (¬ ((slotAt p (i : Int)).offset = C.EMPTYSLOT ∨ (i : Int) = slotNo)))).length
            : Int) + 1) * ((C.sizeofObjectHdr : Int) + (C.sizeofObjectData : Int))
        = (((compactRange p).filter (fun i : Nat => decide
          (¬ ((slotAt p (i : Int)).offset = C.EMPTYSLOT ∨ (i : Int) = slotNo)))).length
            : Int) * ((C.sizeofObjectHdr : Int) + (C.sizeofObjectData : Int))
          + ((C.sizeofObjectHdr : Int) + (C.sizeofObjectData : Int)) := by ring
    rw [hexp] at hb
    have h := compactFold_cursor C p
      (fun i : Nat => (slotAt p (i : Int)).offset = C.EMPTYSLOT ∨ (i : Int) = slotNo)
      (compactRange p) { apage := p, apageDataOffset := 0, lastSlot := 0 } (le_refl _)
      (by simp only at hb ⊢
          omega)
    have h' : ((compactRange p).foldl (compactBodyPinned C p slotNo)
        { apage := p, apageDataOffset := 0, lastSlot := 0 }).apageDataOffset
        = 0 + (((compactRange p).filter (fun i : Nat => decide
            (¬ ((slotAt p (i : Int)).offset = C.EMPTYSLOT ∨ (i : Int) = slotNo)))).length
              : Int) * ((C.sizeofObjectHdr : Int) + (C.sizeofObjectData : Int))
      ∧ ((compactRange p).foldl (compactBodyPinned C p slotNo)
          { apage := p, apageDataOffset := 0, lastSlot := 0 }).apage.header = p.header
      ∧ ∀ k : Int, (slotAt ((compactRange p).foldl (compactBodyPinned C p slotNo)
          { apage := p, apageDataOffset := 0, lastSlot := 0 }).apage k).offset
            = (slotAt p k).offset
          ∨ 0 ≤ (slotAt ((compactRange p).foldl (compactBodyPinned C p slotNo)
            { apage := p, apageDataOffset := 0, lastSlot := 0 }).apage k).offset := h
    obtain ⟨c1, c2, c3⟩ := h'
    have hcur : (0 : Int) ≤ ((compactRange p).foldl (compactBodyPinned C p slotNo)
        { apage := p, apageDataOffset := 0, lastSlot := 0 }).apageDataOffset := by
      rw [c1]; positivity
    simp only [compactLoops, copiedSlots, hs, ne_eq, not_false_eq_true, if_true,
      List.length_append, List.length_map, List.length_singleton, compactPinnedLast,
      setSlotOffset_header, setData_header]
    refine ⟨?_, c2, ?_⟩
    · rw [wrapTwo_of_range _ (by omega) (by rw [c1]; omega), c1]
      push_cast
      ring
    · intro k
      rcases slotAt_setSlotOffset
        (setData ((compactRange p).foldl (compactBodyPinned C p slotNo)
          { apage := p, apageDataOffset := 0, lastSlot := 0 }).apage
          ((compactRange p).foldl (compactBodyPinned C p slotNo)
            { apage := p, apageDataOffset := 0, lastSlot := 0 }).apageDataOffset
          (dataAt p (slotAt p slotNo).offset))
        slotNo ((compactRange p).foldl (compactBodyPinned C p slotNo)
          { apage := p, apageDataOffset := 0, lastSlot := 0 }).apageDataOffset k with h2 | h2
      · right; rw [h2]; exact hcur
      · rw [h2, slotAt_setData]; exact c3 k

/-- The number of slots copied by `EduOM_CompactPage` is at most the `nSlots` of a page that
has at least the entry of slot 0. -/
theorem copiedSlots_length_le (C : Consts) (p : SlottedPage) (slotNo : Int)
    (h1 : 1 ≤ p.header.nSlots) :
    ((copiedSlots C p slotNo).length : Int) ≤ p.header.nSlots := by
  have hlen := compactRange_length p
  by_cases hs : slotNo = C.NIL
  · have hle := List.length_filter_le
      (fun i : Nat => decide (¬ ((slotAt p (i : Int)).offset = C.EMPTYSLOT)))
      (compactRange p)
    simp only [copiedSlots, hs, ne_eq, not_true_eq_false, if_false, List.length_map]
    omega
  · have hle := List.length_filter_le
      (fun i : Nat =>
        decide (¬ ((slotAt p (i : Int)).offset = C.EMPTYSLOT ∨ (i : Int) = slotNo)))
      (compactRange p)
    simp only [copiedSlots, hs, ne_eq, not_false_eq_true, if_true, List.length_append,
      List.length_map, List.length_singleton]
    omega

/-- The statement of `compactLoops_cursor_of_bound` for a page whose `nSlots` is small enough
for every cursor value to stay in the range of `Two`. -/
theorem compactLoops_cursor (C : Consts) (p : SlottedPage) (slotNo : Int)
    (h1 : 1 ≤ p.header.nSlots)
    (hb : p.header.nSlots * ((C.sizeofObjectHdr : Int) + (C.sizeofObjectData : Int))
      + (C.sizeofObjectPtr : Int) ≤ 32767) :
    (compactLoops C p slotNo).apageDataOffset
      = (if slotNo ≠ C.NIL then
          (((copiedSlots C p slotNo).length : Int) - 1)
            * ((C.sizeofObjectHdr : Int) + (C.sizeofObjectData : Int))
            + (C.sizeofObjectPtr : Int)
        else
          ((copiedSlots C p slotNo).length : Int)
            * ((C.sizeofObjectHdr : Int) + (C.sizeofObjectData : Int)))
    ∧ (compactLoops C p slotNo).apage.header = p.header
    ∧ ∀ k : Int, (slotAt (compactLoops C p slotNo).apage k).offset = (slotAt p k).offset
        ∨ 0 ≤ (slotAt (compactLoops C p slotNo).apage k).offset := by
  have hsz : (0 : Int) ≤ (C.sizeofObjectHdr : Int) + (C.sizeofObjectData : Int) := by
    positivity
  have hmul := mul_le_mul_of_nonneg_right (copiedSlots_length_le C p slotNo h1) hsz
  exact compactLoops_cursor_of_bound C p slotNo (by omega)

/-- Membership in the list of the non-empty slots of a page. -/
theorem mem_liveSlots (C : Consts) (p : SlottedPage) (i : Nat) :
    i ∈ liveSlots C p
      ↔ (1 ≤ i ∧ (i : Int) < p.header.nSlots) ∧ (slotAt p (i : Int)).offset ≠ C.EMPTYSLOT := by
  have h : liveSlots C p = (compactRange p).filter
      (fun i : Nat => decide ((slotAt p (i : Int)).offset ≠ C.EMPTYSLOT)) := rfl
  rw [h, List.mem_filter, mem_compactRange]
  simp

/-- The list of the non-empty slots of a page has no duplicates. -/
theorem liveSlots_nodup (C : Consts) (p : SlottedPage) : (liveSlots C p).Nodup :=
  List.Nodup.filter _ (List.nodup_range' _ _)

/-- The slot entries of the page left by `EduOM_CompactPage` are those at the end of its
loops. -/
theorem slotAt_EduOM_CompactPage (C : Consts) (p : SlottedPage) (slotNo k : Int) :
    slotAt (EduOM_CompactPage C p slotNo) k = slotAt (compactLoops C p slotNo).apage k := rfl

/-- After `EduOM_CompactPage` the page has `unused = 0`. -/
theorem EduOM_CompactPage_unused (C : Consts) (apage : SlottedPage) (slotNo : Int) :
    (EduOM_CompactPage C apage slotNo).header.unused = 0 := rfl

/-- After `EduOM_CompactPage` the page has `free` equal to the final cursor and `nSlots` equal
to the final counter plus one, as a value of type `Two`. -/
theorem EduOM_CompactPage_counters (C : Consts) (apage : SlottedPage) (slotNo : Int) :
    (EduOM_CompactPage C apage slotNo).header.free
        = (compactLoops C apage slotNo).apageDataOffset
    ∧ (EduOM_CompactPage C apage slotNo).header.nSlots
        = wrapTwo ((compactLoops C apage slotNo).lastSlot + 1) := ⟨rfl, rfl⟩

/-! ## Lemmas on the layout after EduOM_DestroyObject -/

/-- A store into the offset of a slot leaves the data area as it was. -/
theorem setSlotOffset_data (p : SlottedPage) (i v : Int) :
    (setSlotOffset p i v).data = p.data := by
  unfold setSlotOffset; split <;> rfl

/-- The slot entries read from a page depend on its slot array only. -/
theorem slotAt_congr (p q : SlottedPage) (h : q.slot = p.slot) (k : Int) :
    slotAt q k = slotAt p k := by
  unfold slotAt; rw [h]

/-- What lines 126-135 leave of a page: the slot array and the data area are untouched; the
interior-slot branch keeps `free` and `nSlots`; the last-slot branch sets `free` to the
given offset and decreases `nSlots` by one. -/
theorem destroyUpdate_fields (C : Consts) (K : Collab) (a q : SlottedPage)
    (slotNo offset : Int) (h : destroyUpdate C K a slotNo offset = some q) :
    q.slot = a.slot ∧ q.data = a.data
    ∧ (slotNo + 1 ≠ a.header.nSlots →
        q.header.free = a.header.free ∧ q.header.nSlots = a.header.nSlots)
    ∧ (slotNo + 1 = a.header.nSlots →
        q.header.free = offset ∧ q.header.nSlots = a.header.nSlots - 1) := by
  unfold destroyUpdate at h
  split_ifs at h with hl
  · simp only [Option.some.injEq] at h
    subst h
    exact ⟨rfl, rfl, fun hn => absurd hl hn, fun _ => ⟨rfl, rfl⟩⟩
  · split at h
    · simp at h
    · simp only [Option.some.injEq] at h
      subst h
      exact ⟨rfl, rfl, fun _ => ⟨rfl, rfl⟩, fun hn => absurd hn hl⟩

/-- The live objects of a page `q` lie below its `free` when they do so in a page `p` with the
same data area, the same `free` and `nSlots`, and whose slot entries are those of `q`
except for entries that are empty in `q`. -/
theorem liveObjectsBelowFree_of_emptied (C : Consts) (p q : SlottedPage)
    (hdata : q.data = p.data) (hfree : q.header.free = p.header.free)
    (hn : q.header.nSlots = p.header.nSlots)
    (hslot : ∀ k : Int, (slotAt q k).offset = C.EMPTYSLOT ∨ slotAt q k = slotAt p k)
    (hinv : LiveObjectsBelowFree C p) : LiveObjectsBelowFree C q := by
  intro i hi
  rw [mem_liveSlots] at hi
  rcases hslot (i : Int) with h | h
  · exact absurd h hi.2
  · rw [h, hn] at hi
    have := hinv i ((mem_liveSlots C p i).mpr hi)
    rw [h, hfree]
    simpa only [objectSize, hdata] using this

/-- The interior-slot branch keeps the live objects below `free`: after a successful call that
did not take the last-slot branch, the live objects of the page buffer lie below its
`free` if those of the fetched page did. -/
theorem destroy_interior_keeps_objects_below_free (C : Consts) (K : Collab)
    (cat o : ObjectID) (dlHead : List DeallocListElem) (hC : 0 ≤ C.eNOERROR)
    (hret : (EduOM_DestroyObject C K (some cat) (some o) dlHead).ret = some C.eNOERROR)
    (hnot : o.slotNo + 1 ≠ (K.BfM_GetTrain ⟨o.pageNo, o.volNo⟩).2.header.nSlots)
    (hinv : LiveObjectsBelowFree C (K.BfM_GetTrain ⟨o.pageNo, o.volNo⟩).2) :
    ∃ q, (EduOM_DestroyObject C K (some cat) (some o) dlHead).apage = some q
      ∧ LiveObjectsBelowFree C q := by
  obtain ⟨q, hq, hap⟩ := destroy_success_page C K cat o dlHead hC hret
  refine ⟨q, hap, ?_⟩
  obtain ⟨hs, hd, hint, -⟩ := destroyUpdate_fields C K _ q _ _ hq
  rw [setSlotOffset_header] at hint
  obtain ⟨hf, hn⟩ := hint hnot
  refine liveObjectsBelowFree_of_emptied C _ q (by rw [hd, setSlotOffset_data]) hf hn ?_ hinv
  intro k
  rw [slotAt_congr _ q hs k]
  exact slotAt_setSlotOffset _ _ _ k

/-- The last-slot branch keeps the live objects below `free` when no other live object
reaches beyond the offset of the destroyed slot. -/
theorem destroy_last_keeps_objects_below_free (C : Consts) (K : Collab)
    (cat o : ObjectID) (dlHead : List DeallocListElem) (hC : 0 ≤ C.eNOERROR)
    (hret : (EduOM_DestroyObject C K (some cat) (some o) dlHead).ret = some C.eNOERROR)
    (hlast : o.slotNo + 1 = (K.BfM_GetTrain ⟨o.pageNo, o.volNo⟩).2.header.nSlots)
    (hinv : ∀ i ∈ liveSlots C (K.BfM_GetTrain ⟨o.pageNo, o.volNo⟩).2, (i : Int) ≠ o.slotNo →
      0 ≤ (slotAt (K.BfM_GetTrain ⟨o.pageNo, o.volNo⟩).2 (i : Int)).offset
      ∧ (slotAt (K.BfM_GetTrain ⟨o.pageNo, o.volNo⟩).2 (i : Int)).offset
          + objectSize C (K.BfM_GetTrain ⟨o.pageNo, o.volNo⟩).2
              (slotAt (K.BfM_GetTrain ⟨o.pageNo, o.volNo⟩).2 (i : Int)).offset
          ≤ (slotAt (K.BfM_GetTrain ⟨o.pageNo, o.volNo⟩).2 o.slotNo).offset) :
    ∃ q, (EduOM_DestroyObject C K (some cat) (some o) dlHead).apage = some q
      ∧ LiveObjectsBelowFree C q := by
  obtain ⟨q, hq, hap⟩ := destroy_success_page C K cat o dlHead hC hret
  refine ⟨q, hap, ?_⟩
  obtain ⟨hs, hd, -, hl⟩ := destroyUpdate_fields C K _ q _ _ hq
  rw [setSlotOffset_header] at hl
  obtain ⟨hf, hn⟩ := hl hlast
  intro i hi
  rw [mem_liveSlots, hn] at hi
  have hne : (i : Int) ≠ o.slotNo := by omega
  have hsl : slotAt q (i : Int) = slotAt (K.BfM_GetTrain ⟨o.pageNo, o.volNo⟩).2 (i : Int) := by
    rw [slotAt_congr _ q hs, slotAt_setSlotOffset_ne _ _ _ _ hne]
  rw [hsl] at hi ⊢
  have := hinv i ((mem_liveSlots C _ i).mpr ⟨⟨hi.1.1, by omega⟩, hi.2⟩) hne
  rw [hf]
  simpa only [objectSize, hd, setSlotOffset_data] using this

/-! ## EduOM_CompactPage: content, free offset, pinned slot -/

/-- C1, evaluated on `pageHole` (slots 1 and 3 non-empty, `objC` of 16 bytes in slot 3 at
offset 32), compacted with no pinned slot. Content preservation would give, at the new
offset of slot 3, the 16 bytes of `objC`. The code stores one byte per object: slot 3
moves to offset 12, where only the first byte (51) comes from `objC`; the other 15
bytes are those that were there before, so the object read at the new offset differs
from the object read at the old offset. -/
theorem C1_compact_copies_one_byte_only :
    liveSlots exampleConsts pageHole = [1, 3]
    ∧ (slotAt pageHole 3).offset = 32
    ∧ objectSize exampleConsts pageHole 32 = 16
    ∧ objectBytes pageHole 32 16 = objC
    ∧ (slotAt (EduOM_CompactPage exampleConsts pageHole exampleConsts.NIL) 3).offset = 12
    ∧ objectBytes (EduOM_CompactPage exampleConsts pageHole exampleConsts.NIL) 12 16
        = [51, 0, 2, 0, 12, 0, 0, 0, 98, 98, 98, 98, 98, 98, 98, 98]
    ∧ objectBytes (EduOM_CompactPage exampleConsts pageHole exampleConsts.NIL) 12 16
        ≠ objectBytes pageHole 32 16 := by
  decide

/-- C2, evaluated on `pageHole` compacted with no pinned slot. The two copied objects have
sizes 12 and 16 by their own headers, so the exact sum is 28. The code leaves
`unused = 0` but `free = 24`: it advances by the constant
`sizeof(obj->header) + sizeof(obj->data)` (here 12) for every object. -/
theorem C2_compact_free_is_not_the_sum :
    liveSlots exampleConsts pageHole = [1, 3]
    ∧ ((liveSlots exampleConsts pageHole).map
        (fun i : Nat =>
          objectSize exampleConsts pageHole (slotAt pageHole (i : Int)).offset)).sum = 28
    ∧ (EduOM_CompactPage exampleConsts pageHole exampleConsts.NIL).header.unused = 0
    ∧ (EduOM_CompactPage exampleConsts pageHole exampleConsts.NIL).header.free = 24 := by
  decide

/-- C3, evaluated on `pageABC` compacted with slot 2 pinned (`objB`, 20 bytes). After the
call slot 2 has the highest offset, 24, but `free = 32`: the cursor advances by
`sizeof(obj)`, the size of a pointer (here 8), after the pinned object, so the free
region does not start where the 20-byte object ends (offset 44). -/
theorem C3_compact_pinned_free_offset :
    (slotAt pageABC 2).offset ≠ exampleConsts.EMPTYSLOT
    ∧ objectSize exampleConsts pageABC (slotAt pageABC 2).offset = 20
    ∧ (EduOM_CompactPage exampleConsts pageABC 2).slot.map SlottedPageSlot.offset
        = [-1, 0, 24, 12]
    ∧ (EduOM_CompactPage exampleConsts pageABC 2).header.free = 32
    ∧ (slotAt (EduOM_CompactPage exampleConsts pageABC 2) 2).offset + 20
        ≠ (EduOM_CompactPage exampleConsts pageABC 2).header.free := by
  decide

/-! ## EduOM_DestroyObject: last slot, interior slot, deallocation -/

/-- C4 as stated fails on `pageTail`: slot 1 is the highest-numbered non-empty slot, the
entry of slot 2 exists and is empty. Destroying slot 1 succeeds (the stray read yields
4 here) and leaves `nSlots = 3`: the test `oid->slotNo + 1 == nSlots` is false, so the
slot is handled as an interior one and `unused` grows instead. -/
theorem C4_counterexample_empty_entry_above :
    liveSlots exampleConsts pageTail = [1]
    ∧ pageTail.header.nSlots = 3
    ∧ (slotAt pageTail 2).offset = exampleConsts.EMPTYSLOT
    ∧ (EduOM_DestroyObject exampleConsts (exampleCollab [pageTail] 1 1 (some 4))
        (some exampleCat) (some ⟨1, 7, 1, 10⟩) []).ret = some exampleConsts.eNOERROR
    ∧ Option.map (fun q => (q.header.nSlots, q.header.free, q.header.unused))
        (EduOM_DestroyObject exampleConsts (exampleCollab [pageTail] 1 1 (some 4))
          (some exampleCat) (some ⟨1, 7, 1, 10⟩) []).apage = some (3, 32, 48)
    ∧ ¬ DestroyedLastSlot pageTail 1
        (EduOM_DestroyObject exampleConsts (exampleCollab [pageTail] 1 1 (some 4))
          (some exampleCat) (some ⟨1, 7, 1, 10⟩) []) := by
  refine ⟨by decide, by decide, by decide, by decide, by decide, ?_⟩
  rintro ⟨q, hq, hn, -, -⟩
  have h : Option.map (fun q => q.header.nSlots)
      (EduOM_DestroyObject exampleConsts (exampleCollab [pageTail] 1 1 (some 4))
        (some exampleCat) (some ⟨1, 7, 1, 10⟩) []).apage = some 3 := by decide
  rw [hq] at h
  simp only [Option.map_some', Option.some.injEq] at h
  rw [h] at hn
  exact absurd hn (by decide)

/-- C4, amended: when the object ID names the last entry of the slot array
(`slotNo + 1 = nSlots` on the fetched page), a call that returns `eNOERROR` has decreased
`nSlots` by exactly 1, set `free` to the former offset of that slot and left `unused`
as it was. -/
theorem C4_destroy_last_entry (C : Consts) (K : Collab) (cat o : ObjectID)
    (dlHead : List DeallocListElem) (hC : 0 ≤ C.eNOERROR)
    (hlast : o.slotNo + 1 = (K.BfM_GetTrain ⟨o.pageNo, o.volNo⟩).2.header.nSlots)
    (hret : (EduOM_DestroyObject C K (some cat) (some o) dlHead).ret = some C.eNOERROR) :
    DestroyedLastSlot (K.BfM_GetTrain ⟨o.pageNo, o.volNo⟩).2 o.slotNo
      (EduOM_DestroyObject C K (some cat) (some o) dlHead) := by
  simp only [EduOM_DestroyObject, destroyBody] at hret ⊢
  split_ifs at hret ⊢ with h1 h2 h3
  · simp at hret; omega
  · simp at hret; omega
  · simp at hret; omega
  · simp only [destroyUpdate, setSlotOffset_header, hlast, if_true] at hret ⊢
    refine ⟨_, destroyFinish_apage _ _ _ _ _ _ _ _ _, ?_, ?_, ?_⟩ <;>
      simp [setSlotOffset_header]

/-- C4, amended, on `pageABC`: slot 3 is the last entry of the slot array; destroying it
succeeds and gives `nSlots = 3`, `free = 32`, `unused = 0`. -/
theorem C4_destroy_last_entry_witness :
    (EduOM_DestroyObject exampleConsts (fileABC none)
        (some exampleCat) (some ⟨1, 7, 3, 12⟩) []).ret = some exampleConsts.eNOERROR
    ∧ DestroyedLastSlot ((fileABC none).BfM_GetTrain ⟨1, 7⟩).2 3
        (EduOM_DestroyObject exampleConsts (fileABC none)
          (some exampleCat) (some ⟨1, 7, 3, 12⟩) []) :=
  ⟨by decide,
   C4_destroy_last_entry exampleConsts (fileABC none) exampleCat ⟨1, 7, 3, 12⟩ []
     (by decide) (by decide) (by decide)⟩

/-- C5, evaluated on `pageABC` (first and only page of its file), destroying slot 2, an
interior slot that holds `objB` (20 bytes: header 8, declared length 12). The specified
increase of `unused` is 20 plus one slot entry, 28. The code converts the first byte of
the object (34) to a pointer and reads `header.length` through it. When that read
faults the call does not return; when it yields a value (0 here) the call succeeds
with `unused = 16`, computed from that value and not from the object's length. -/
theorem C5_destroy_interior_reads_stray_length :
    (slotAt pageABC 2).offset = 12
    ∧ dataAt pageABC 12 = 34
    ∧ objectSize exampleConsts pageABC 12 + (exampleConsts.sizeofSlottedPageSlot : Int) = 28
    ∧ (EduOM_DestroyObject exampleConsts (fileABC none)
        (some exampleCat) (some ⟨1, 7, 2, 11⟩) []).ret = none
    ∧ (EduOM_DestroyObject exampleConsts (fileABC (some 0))
        (some exampleCat) (some ⟨1, 7, 2, 11⟩) []).ret = some exampleConsts.eNOERROR
    ∧ Option.map (fun q => (q.header.nSlots, q.header.free, q.header.unused))
        (EduOM_DestroyObject exampleConsts (fileABC (some 0))
          (some exampleCat) (some ⟨1, 7, 2, 11⟩) []).apage = some (4, 48, 16) := by
  decide

/-- C6, evaluated on a file of two pages whose page 2 is `pageOnlyTwo`: not the first page,
slot 1 empty, the only object in slot 2. Destroying that object succeeds and leaves no
non-empty slot on the page, yet the list of deferred deallocations is unchanged and
`om_FileMapDeletePage` is not called: the code tests `nSlots == 1`, and `nSlots` is 2
after the call. The page is put back on the available-space list instead. -/
theorem C6_destroy_only_object_not_deallocated :
    liveSlots exampleConsts pageOnlyTwo = [2]
    ∧ (EduOM_DestroyObject exampleConsts
        (exampleCollab [relink pageABC 1 2 (-1), pageOnlyTwo] 1 2 none)
        (some exampleCat) (some ⟨2, 7, 2, 11⟩) [⟨2, ⟨55, 7⟩⟩])
      = { ret := some exampleConsts.eNOERROR
          apage := some { header := exampleHdr 2 2 12 20 (-1) 1
                          data := pageOnlyTwo.data
                          slot := [⟨-1, 0⟩, ⟨-1, 10⟩, ⟨-1, 11⟩] }
          dlHead := [⟨2, ⟨55, 7⟩⟩]
          trace := [Event.BfM_GetTrain ⟨100, 7⟩ 0, Event.BfM_GetTrain ⟨2, 7⟩ 0,
                    Event.om_RemoveFromAvailSpaceList ⟨2, 7⟩ 0, Event.BfM_SetDirty ⟨2, 7⟩ 0,
                    Event.om_PutInAvailSpaceList ⟨2, 7⟩ 0, Event.BfM_FreeTrain ⟨100, 7⟩] }
    ∧ liveSlots exampleConsts { header := exampleHdr 2 2 12 20 (-1) 1
                                data := pageOnlyTwo.data
                                slot := [⟨-1, 0⟩, ⟨-1, 10⟩, ⟨-1, 11⟩] } = [] := by
  decide

/-- C7: when the page number of the object ID is the `firstPage` of the catalog entry, a call
of `EduOM_DestroyObject` leaves the list of deferred deallocations as it was, never calls
`om_FileMapDeletePage`, and, if it returns `eNOERROR` (a non-negative code), it has
called `om_PutInAvailSpaceList` on the page with a non-negative result. -/
theorem C7_first_page_never_deallocated (C : Consts) (K : Collab) (cat o : ObjectID)
    (dlHead : List DeallocListElem)
    (hfirst : o.pageNo = (K.GET_PTR_TO_CATENTRY_FOR_DATA cat
        (K.BfM_GetTrain ⟨cat.pageNo, cat.volNo⟩).2).firstPage) :
    (EduOM_DestroyObject C K (some cat) (some o) dlHead).dlHead = dlHead
    ∧ (∀ pid e, Event.om_FileMapDeletePage pid e
        ∉ (EduOM_DestroyObject C K (some cat) (some o) dlHead).trace)
    ∧ (0 ≤ C.eNOERROR →
        (EduOM_DestroyObject C K (some cat) (some o) dlHead).ret = some C.eNOERROR →
        ∃ e, 0 ≤ e ∧ Event.om_PutInAvailSpaceList ⟨o.pageNo, o.volNo⟩ e
          ∈ (EduOM_DestroyObject C K (some cat) (some o) dlHead).trace) := by
  have key : (EduOM_DestroyObject C K (some cat) (some o) dlHead).dlHead = dlHead
    ∧ (∀ ev ∈ (EduOM_DestroyObject C K (some cat) (some o) dlHead).trace,
          ev.isFileMapDelete = false)
    ∧ (0 ≤ C.eNOERROR →
        (EduOM_DestroyObject C K (some cat) (some o) dlHead).ret = some C.eNOERROR →
        ∃ e, 0 ≤ e ∧ Event.om_PutInAvailSpaceList ⟨o.pageNo, o.volNo⟩ e
          ∈ (EduOM_DestroyObject C K (some cat) (some o) dlHead).trace) := by
    simp only [EduOM_DestroyObject, destroyBody]
    split_ifs with h1 h2 h3
    · refine ⟨rfl, by simp [Event.isFileMapDelete], ?_⟩
      intro hC hr
      simp only [Option.some.injEq] at hr
      omega
    · refine ⟨rfl, by simp [Event.isFileMapDelete], ?_⟩
      intro hC hr
      simp only [Option.some.injEq] at hr
      omega
    · refine ⟨rfl, by simp [Event.isFileMapDelete], ?_⟩
      intro hC hr
      simp only [Option.some.injEq] at hr
      omega
    · split
      · refine ⟨rfl, by simp [Event.isFileMapDelete], ?_⟩
        intro _ hr
        simp at hr
      · obtain ⟨a, b, c⟩ :=
          destroyFinish_first C K cat o _ ⟨o.pageNo, o.volNo⟩ _ dlHead _ hfirst
        exact ⟨a, b (by simp [Event.isFileMapDelete]), c⟩
  refine ⟨key.1, ?_, key.2.2⟩
  intro pid e hmem
  have := key.2.1 _ hmem
  simp [Event.isFileMapDelete] at this

/-- C7 on an example: page 1, `pageSingle`, is the first page of its file and holds a single
object in slot 1. Destroying that object succeeds and empties the page (`nSlots = 1`);
the list of deferred deallocations keeps its one earlier record and the page is put back
on the available-space list. -/
theorem C7_first_page_never_deallocated_witness :
    (1 : Int) = (fileSingle.GET_PTR_TO_CATENTRY_FOR_DATA exampleCat
        (fileSingle.BfM_GetTrain ⟨100, 7⟩).2).firstPage
    ∧ (EduOM_DestroyObject exampleConsts fileSingle
        (some exampleCat) (some ⟨1, 7, 1, 10⟩) [⟨2, ⟨55, 7⟩⟩]).ret
          = some exampleConsts.eNOERROR
    ∧ Option.map (fun q => q.header.nSlots) (EduOM_DestroyObject exampleConsts fileSingle
        (some exampleCat) (some ⟨1, 7, 1, 10⟩) [⟨2, ⟨55, 7⟩⟩]).apage = some 1
    ∧ (EduOM_DestroyObject exampleConsts fileSingle
        (some exampleCat) (some ⟨1, 7, 1, 10⟩) [⟨2, ⟨55, 7⟩⟩]).dlHead = [⟨2, ⟨55, 7⟩⟩]
    ∧ (∀ pid e, Event.om_FileMapDeletePage pid e ∉ (EduOM_DestroyObject exampleConsts
        fileSingle (some exampleCat) (some ⟨1, 7, 1, 10⟩) [⟨2, ⟨55, 7⟩⟩]).trace)
    ∧ (∃ e, 0 ≤ e ∧ Event.om_PutInAvailSpaceList ⟨1, 7⟩ e ∈ (EduOM_DestroyObject
        exampleConsts fileSingle (some exampleCat) (some ⟨1, 7, 1, 10⟩)
          [⟨2, ⟨55, 7⟩⟩]).trace) :=
  have h := C7_first_page_never_deallocated exampleConsts fileSingle
    exampleCat ⟨1, 7, 1, 10⟩ [⟨2, ⟨55, 7⟩⟩] (by decide)
  ⟨by decide, by decide, by decide, h.1, h.2.1, h.2.2 (by decide) (by decide)⟩

/-! ## EduOM_NextObject: the scan -/

/-- C8, evaluated on `fileTwoPages`: two pages with three objects each. Scanning from no
current object gives object (page 1, slot 1) with the code `EOS`. Continuing from that
object fails with the error of `BfM_GetTrain` on page `NIL` (-201): the first loop
compares the NEXT page number with the current page number and runs off the chain.
Continuing from (page 2, slot 2) gives `EOS` and stores no object ID, although slot 3
of page 2 holds an object. So the objects after the first are not returned. -/
theorem C8_scan_does_not_enumerate :
    liveSlots exampleConsts (relink pageABC 1 2 (-1)) = [1, 2, 3]
    ∧ liveSlots exampleConsts (relink pageABC 2 (-1) 1) = [1, 2, 3]
    ∧ Option.map (fun r => (r.ret, r.nextOID)) (EduOM_NextObject exampleConsts fileTwoPages 10
        (some exampleCat) none (some oidBuf) (some hdrBuf))
        = some (exampleConsts.EOS, some ⟨1, 7, 1, 10⟩)
    ∧ Option.map (fun r => (r.ret, r.nextOID)) (EduOM_NextObject exampleConsts fileTwoPages 10
        (some exampleCat) (some ⟨1, 7, 1, 10⟩) (some oidBuf) (some hdrBuf))
        = some (-201, some oidBuf)
    ∧ Option.map (fun r => (r.ret, r.nextOID)) (EduOM_NextObject exampleConsts fileTwoPages 10
        (some exampleCat) (some ⟨2, 7, 2, 11⟩) (some oidBuf) (some hdrBuf))
        = some (exampleConsts.EOS, some oidBuf) := by
  decide

/-- C9, evaluated on three one-page files. On `fileABC` the scan from no current object
stores the ID of (page 1, slot 1) but returns `EOS`, the code it also returns on
`fileEmpty`, a file without objects; and it leaves the caller's header buffer as it
was, which is not the header of the object. On `fileOnlyTwo`, whose slot 1 is empty and
whose lowest non-empty slot is 2, it stores the ID of slot 1. -/
theorem C9_scan_from_start_result :
    EduOM_NextObject exampleConsts (fileABC none) 10
        (some exampleCat) none (some oidBuf) (some hdrBuf)
      = some { ret := exampleConsts.EOS
               nextOID := some ⟨1, 7, 1, 10⟩
               objHdr := some hdrBuf
               trace := [Event.BfM_GetTrain ⟨100, 7⟩ 0, Event.BfM_GetTrain ⟨1, 7⟩ 0] }
    ∧ objectBytes pageABC (slotAt pageABC 1).offset 8 ≠ hdrBuf
    ∧ Option.map NextResult.ret (EduOM_NextObject exampleConsts fileEmpty 10
        (some exampleCat) none (some oidBuf) (some hdrBuf)) = some exampleConsts.EOS
    ∧ liveSlots exampleConsts (relink pageOnlyTwo 1 (-1) (-1)) = [2]
    ∧ Option.map NextResult.nextOID (EduOM_NextObject exampleConsts fileOnlyTwo 10
        (some exampleCat) none (some oidBuf) (some hdrBuf)) = some (some ⟨1, 7, 1, 10⟩) := by
  decide

/-- C10, evaluated on `fileTwoPages` with the current object (page 2, slot 1): slots 2 and 3
of page 2 hold objects, so the next object is the one of slot 2. The code returns `EOS`
and leaves the caller's `*nextOID` and header buffer as they were: it looks for a next
object only when the current slot is the last entry of the slot array. -/
theorem C10_scan_within_page_stores_nothing :
    liveSlots exampleConsts (relink pageABC 2 (-1) 1) = [1, 2, 3]
    ∧ EduOM_NextObject exampleConsts fileTwoPages 10
        (some exampleCat) (some ⟨2, 7, 1, 10⟩) (some oidBuf) (some hdrBuf)
      = some { ret := exampleConsts.EOS
               nextOID := some oidBuf
               objHdr := some hdrBuf
               trace := [Event.BfM_GetTrain ⟨100, 7⟩ 0, Event.BfM_GetTrain ⟨1, 7⟩ 0,
                         Event.BfM_GetTrain ⟨2, 7⟩ 0, Event.BfM_FreeTrain ⟨100, 7⟩] } := by
  decide

/-- C11, evaluated on two files. On `fileSkip` (pages 1, 2, 3, 4; page 3 holds no object)
with the current object in the last slot entry of page 2, the next object is slot 1 of
page 4; the code fetches page 3 and stores the ID (page 3, slot 1) without looking at
`nSlots` or at the slot. On `fileTrail` with the current object in slot 1 of page 2,
which has no object in a higher slot but an empty entry for slot 2, the next object is
slot 1 of page 3; the code returns `EOS` and stores nothing. -/
theorem C11_scan_across_pages_does_not_skip :
    liveSlots exampleConsts (relink pageABC 2 3 1) = [1, 2, 3]
    ∧ liveSlots exampleConsts (relink pageEmptied 3 4 2) = []
    ∧ liveSlots exampleConsts (relink pageABC 4 (-1) 3) = [1, 2, 3]
    ∧ Option.map (fun r => (r.ret, r.nextOID)) (EduOM_NextObject exampleConsts fileSkip 10
        (some exampleCat) (some ⟨2, 7, 3, 12⟩) (some oidBuf) (some hdrBuf))
        = some (exampleConsts.EOS, some ⟨3, 7, 1, 10⟩)
    ∧ liveSlots exampleConsts (relink pageTail 2 3 1) = [1]
    ∧ liveSlots exampleConsts (relink pageABC 3 (-1) 2) = [1, 2, 3]
    ∧ Option.map (fun r => (r.ret, r.nextOID)) (EduOM_NextObject exampleConsts fileTrail 10
        (some exampleCat) (some ⟨2, 7, 1, 10⟩) (some oidBuf) (some hdrBuf))
        = some (exampleConsts.EOS, some oidBuf) := by
  decide

/-- C12, evaluated on two one-page files. On `fileAllEmpty`, whose page has no object but
two slot entries, the scan from no current object returns `EOS` and stores the ID of
the empty slot 1 into the caller's `*nextOID`. On `fileSingle`, whose only object is in
slot 1 of the single (first and last) page, the scan from that object does not return
`EOS`: it returns -201, the error of `BfM_GetTrain` on page `NIL`. For comparison, on
`fileEmpty` (a page with `nSlots = 1`) and on `fileTwoPages` from the last object of the
last page, the call returns `EOS` and stores nothing. -/
theorem C12_scan_termination_results :
    Option.map (fun r => (r.ret, r.nextOID)) (EduOM_NextObject exampleConsts fileEmpty 10
        (some exampleCat) none (some oidBuf) (some hdrBuf))
        = some (exampleConsts.EOS, some oidBuf)
    ∧ Option.map (fun r => (r.ret, r.nextOID)) (EduOM_NextObject exampleConsts fileTwoPages 10
        (some exampleCat) (some ⟨2, 7, 3, 12⟩) (some oidBuf) (some hdrBuf))
        = some (exampleConsts.EOS, some oidBuf)
    ∧ liveSlots exampleConsts pageAllEmpty = []
    ∧ Option.map (fun r => (r.ret, r.nextOID)) (EduOM_NextObject exampleConsts fileAllEmpty 10
        (some exampleCat) none (some oidBuf) (some hdrBuf))
        = some (exampleConsts.EOS, some ⟨1, 7, 1, 10⟩)
    ∧ liveSlots exampleConsts pageSingle = [1]
    ∧ Option.map (fun r => (r.ret, r.nextOID)) (EduOM_NextObject exampleConsts fileSingle 10
        (some exampleCat) (some ⟨1, 7, 1, 10⟩) (some oidBuf) (some hdrBuf))
        = some (-201, some oidBuf)
    ∧ (-201 : Int) ≠ exampleConsts.EOS := by
  decide

/-- C13, evaluated on `fileABC` and `fileEmpty`. A successful `EduOM_DestroyObject` (slot 3 of
page 1) releases the catalog page and leaves one pin on the data page. When
`BfM_SetDirty` fails the data page is released and one pin stays on the catalog page.
`EduOM_NextObject` from no current object leaves one pin on the catalog page and one
on the data page when it finds an object, and one on the catalog page when it reaches
the end of an empty file. -/
theorem C13_pins_left_after_calls :
    (EduOM_DestroyObject exampleConsts (fileABC none)
        (some exampleCat) (some ⟨1, 7, 3, 12⟩) []).ret = some exampleConsts.eNOERROR
    ∧ pinBalance ⟨100, 7⟩ (EduOM_DestroyObject exampleConsts (fileABC none)
        (some exampleCat) (some ⟨1, 7, 3, 12⟩) []).trace = 0
    ∧ pinBalance ⟨1, 7⟩ (EduOM_DestroyObject exampleConsts (fileABC none)
        (some exampleCat) (some ⟨1, 7, 3, 12⟩) []).trace = 1
    ∧ (EduOM_DestroyObject exampleConsts fileDirtyFails
        (some exampleCat) (some ⟨1, 7, 3, 12⟩) []).ret = some (-77)
    ∧ pinBalance ⟨100, 7⟩ (EduOM_DestroyObject exampleConsts fileDirtyFails
        (some exampleCat) (some ⟨1, 7, 3, 12⟩) []).trace = 1
    ∧ pinBalance ⟨1, 7⟩ (EduOM_DestroyObject exampleConsts fileDirtyFails
        (some exampleCat) (some ⟨1, 7, 3, 12⟩) []).trace = 0
    ∧ Option.map (fun r => (r.ret, pinBalance ⟨100, 7⟩ r.trace, pinBalance ⟨1, 7⟩ r.trace))
        (EduOM_NextObject exampleConsts (fileABC none) 10
          (some exampleCat) none (some oidBuf) (some hdrBuf))
        = some (exampleConsts.EOS, 1, 1)
    ∧ Option.map (fun r => (r.ret, pinBalance ⟨100, 7⟩ r.trace, pinBalance ⟨1, 7⟩ r.trace))
        (EduOM_NextObject exampleConsts fileEmpty 10
          (some exampleCat) none (some oidBuf) (some hdrBuf))
        = some (exampleConsts.EOS, 1, 0) := by
  decide

/-- C14 as stated fails for a null header output: on `fileABC`, `EduOM_NextObject` with a
non-null catalog reference, a non-null `nextOID` and `objHdr == NULL` calls
`BfM_GetTrain` twice, stores an object ID and returns `EOS`, which is neither of the two
parameter errors. -/
theorem C14_counterexample_null_header_not_checked :
    EduOM_NextObject exampleConsts (fileABC none) 10
        (some exampleCat) none (some oidBuf) none
      = some { ret := exampleConsts.EOS
               nextOID := some ⟨1, 7, 1, 10⟩
               objHdr := none
               trace := [Event.BfM_GetTrain ⟨100, 7⟩ 0, Event.BfM_GetTrain ⟨1, 7⟩ 0] }
    ∧ exampleConsts.EOS ≠ exampleConsts.eBADCATALOGOBJECT_OM
    ∧ exampleConsts.EOS ≠ exampleConsts.eBADOBJECTID_OM := by
  decide

/-- C14, amended: `EduOM_DestroyObject` with a null catalog reference returns
`eBADCATALOGOBJECT_OM` and, with a non-null catalog reference and a null object ID,
`eBADOBJECTID_OM`; `EduOM_NextObject` with a null catalog reference returns
`eBADCATALOGOBJECT_OM` and, with a non-null catalog reference and a null `nextOID`,
`eBADOBJECTID_OM`. In each case no call to another module is made (the trace is empty)
and the deallocation list, the page buffer and the output buffers are as they were. -/
theorem C14_parameter_validation (C : Consts) (K : Collab) (fuel : Nat) (cat : ObjectID)
    (oid curOID nextOID : Option ObjectID) (objHdr : Option (List Int))
    (dlHead : List DeallocListElem) :
    EduOM_DestroyObject C K none oid dlHead
      = { ret := some C.eBADCATALOGOBJECT_OM, apage := none, dlHead := dlHead, trace := [] }
    ∧ EduOM_DestroyObject C K (some cat) none dlHead
      = { ret := some C.eBADOBJECTID_OM, apage := none, dlHead := dlHead, trace := [] }
    ∧ EduOM_NextObject C K fuel none curOID nextOID objHdr
      = some { ret := C.eBADCATALOGOBJECT_OM, nextOID := nextOID, objHdr := objHdr,
               trace := [] }
    ∧ EduOM_NextObject C K fuel (some cat) curOID none objHdr
      = some { ret := C.eBADOBJECTID_OM, nextOID := none, objHdr := objHdr, trace := [] } := by
  refine ⟨?_, rfl, ?_, rfl⟩
  · cases oid <;> rfl
  · cases nextOID <;> rfl

/-- C15, evaluated step by step from `pageABC`, the first page of `fileABC` (objects of 12, 20
and 16 bytes in slots 1, 2, 3). Step 1, destroying slot 2: the call does not return when
the stray read faults; when the stray read happens to yield the object's length 12 the
page becomes `pageHole` (`unused` increased by 28, slots 1 and 3 in place). Step 2,
compacting `pageHole` with no pinned slot: slots 1 and 3 get the offsets 0 and 12 and
`unused = 0`, but `free = 24` (not 28) and `nSlots = 3`, so slot 3 is outside the slot
array. Step 3, scanning the compacted page: from no current object the ID of slot 1
comes with the code `EOS`; from slot 1 and from slot 3 the call returns the error -201
(neither slot 3 nor `EOS`). -/
theorem C15_round_trip_results :
    (EduOM_DestroyObject exampleConsts (fileABC none)
        (some exampleCat) (some ⟨1, 7, 2, 11⟩) []).ret = none
    ∧ (EduOM_DestroyObject exampleConsts (fileABC (some 12))
        (some exampleCat) (some ⟨1, 7, 2, 11⟩) []).apage = some pageHole
    ∧ pageHole.header.unused = pageABC.header.unused + (20 + 8)
    ∧ (EduOM_CompactPage exampleConsts pageHole exampleConsts.NIL).slot.map
        SlottedPageSlot.offset = [-1, 0, -1, 12]
    ∧ (EduOM_CompactPage exampleConsts pageHole exampleConsts.NIL).header
        = exampleHdr 1 3 24 0 (-1) (-1)
    ∧ Option.map (fun r => (r.ret, r.nextOID)) (EduOM_NextObject exampleConsts fileCompacted 10
        (some exampleCat) none (some oidBuf) (some hdrBuf))
        = some (exampleConsts.EOS, some ⟨1, 7, 1, 10⟩)
    ∧ Option.map (fun r => (r.ret, r.nextOID)) (EduOM_NextObject exampleConsts fileCompacted 10
        (some exampleCat) (some ⟨1, 7, 1, 10⟩) (some oidBuf) (some hdrBuf))
        = some (-201, some oidBuf)
    ∧ Option.map (fun r => (r.ret, r.nextOID)) (EduOM_NextObject exampleConsts fileCompacted 10
        (some exampleCat) (some ⟨1, 7, 3, 12⟩) (some oidBuf) (some hdrBuf))
        = some (-201, some oidBuf) := by
  decide

/-- C16, evaluated on `pageHole`: the first compaction with no pinned slot gives `nSlots = 3`
and `free = 24` with slot 3 at offset 12; compacting that page again gives `nSlots = 2`
and `free = 12`. The second result differs from the first, and the object of slot 3,
stored at offsets 12 and up, is no longer below `free`. -/
theorem C16_compact_twice_differs :
    (EduOM_CompactPage exampleConsts pageHole exampleConsts.NIL).header
        = exampleHdr 1 3 24 0 (-1) (-1)
    ∧ (slotAt (EduOM_CompactPage exampleConsts pageHole exampleConsts.NIL) 3).offset = 12
    ∧ (EduOM_CompactPage exampleConsts
        (EduOM_CompactPage exampleConsts pageHole exampleConsts.NIL) exampleConsts.NIL).header
        = exampleHdr 1 2 12 0 (-1) (-1)
    ∧ (slotAt (EduOM_CompactPage exampleConsts
        (EduOM_CompactPage exampleConsts pageHole exampleConsts.NIL) exampleConsts.NIL)
          3).offset = 12
    ∧ EduOM_CompactPage exampleConsts
        (EduOM_CompactPage exampleConsts pageHole exampleConsts.NIL) exampleConsts.NIL
        ≠ EduOM_CompactPage exampleConsts pageHole exampleConsts.NIL := by
  decide

/-- Packing: under `LiveObjectsFit`, the non-empty slots times the minimal object size fit
below `free`. -/
theorem liveObjects_packed (C : Consts) (p : SlottedPage) (hfit : LiveObjectsFit C p) :
    ((liveSlots C p).length : Int)
      * ((C.sizeofObjectHdr : Int) + (C.sizeofObjectData : Int)) ≤ p.header.free := by
  obtain ⟨hfree, hin, hdis⟩ := hfit
  set len : Int := (C.sizeofObjectHdr : Int) + (C.sizeofObjectData : Int) with hlen
  have hsz : 0 ≤ len := by positivity
  have hdisj : ∀ x ∈ (liveSlots C p).toFinset, ∀ y ∈ (liveSlots C p).toFinset, x ≠ y →
      Disjoint (Finset.Ico (slotAt p (x : Int)).offset ((slotAt p (x : Int)).offset + len))
        (Finset.Ico (slotAt p (y : Int)).offset ((slotAt p (y : Int)).offset + len)) := by
    intro x hx y hy hxy
    rw [List.mem_toFinset] at hx hy
    rw [Finset.disjoint_left]
    intro a ha hb
    rw [Finset.mem_Ico] at ha hb
    rcases hdis x hx y hy hxy with h | h <;> omega
  have hsub : (liveSlots C p).toFinset.biUnion
      (fun x : Nat => Finset.Ico (slotAt p (x : Int)).offset
        ((slotAt p (x : Int)).offset + len)) ⊆ Finset.Ico 0 p.header.free := by
    intro a ha
    rw [Finset.mem_biUnion] at ha
    obtain ⟨x, hx, hax⟩ := ha
    rw [List.mem_toFinset] at hx
    rw [Finset.mem_Ico] at hax ⊢
    have := hin x hx
    omega
  have hcard := Finset.card_le_card hsub
  rw [Finset.card_biUnion hdisj] at hcard
  simp only [Int.card_Ico, add_sub_cancel_left, sub_zero, Finset.sum_const, smul_eq_mul,
    List.toFinset_card_of_nodup (liveSlots_nodup C p)] at hcard
  have h1 : ((len.toNat : Nat) : Int) = len := Int.toNat_of_nonneg hsz
  have h2 : ((p.header.free.toNat : Nat) : Int) = p.header.free := Int.toNat_of_nonneg hfree
  have h3 : (((liveSlots C p).length * len.toNat : Nat) : Int) ≤ (p.header.free.toNat : Int) :=
    by exact_mod_cast hcard
  rw [Nat.cast_mul, h1, h2] at h3
  exact h3

/-- With no pinned slot, or with a pinned slot that is a non-empty slot of the page, a page
whose `nSlots` is a value of type `Two` has at most 32766 slots copied. -/
theorem copiedSlots_length_le_of_valid (C : Consts) (p : SlottedPage) (slotNo : Int)
    (hn : p.header.nSlots ≤ 32767)
    (hs : slotNo = C.NIL ∨ (1 ≤ slotNo ∧ slotNo < p.header.nSlots
      ∧ (slotAt p slotNo).offset ≠ C.EMPTYSLOT)) :
    (copiedSlots C p slotNo).length ≤ 32766 := by
  rw [copiedSlots_length C p slotNo hs]
  have hle : (liveSlots C p).length ≤ (compactRange p).length := List.length_filter_le _ _
  rw [compactRange_length] at hle
  omega

/-- C17 as stated fails on `pageHole` (slot 2 empty, slot 3 not, `nSlots = 4`) when the pinned
slot is the empty slot 2 or slot 0: the pinned slot is copied without a test, so three
slots are copied and `nSlots` is 4 again, not smaller than before. -/
theorem C17_counterexample_pinned_slot_counted :
    pageHole.header.nSlots = 4
    ∧ (slotAt pageHole 2).offset = exampleConsts.EMPTYSLOT
    ∧ (slotAt pageHole 3).offset ≠ exampleConsts.EMPTYSLOT
    ∧ copiedSlots exampleConsts pageHole 2 = [1, 3, 2]
    ∧ (EduOM_CompactPage exampleConsts pageHole 2).header.nSlots = 4
    ∧ copiedSlots exampleConsts pageHole 0 = [1, 3, 0]
    ∧ (EduOM_CompactPage exampleConsts pageHole 0).header.nSlots = 4
    ∧ ¬ ((EduOM_CompactPage exampleConsts pageHole 2).header.nSlots
        < pageHole.header.nSlots)
    ∧ ¬ ((EduOM_CompactPage exampleConsts pageHole 0).header.nSlots
        < pageHole.header.nSlots) := by
  decide

/-- C17, amended: `EduOM_CompactPage` leaves `nSlots` equal to one plus the number of slots it
copied, converted to the type `Two`, hence equal to it when at most 32766 slots were
copied. Consequently, when some slot `i >= 1` is empty while a higher slot `j < nSlots`
is not, and the pinned slot is none or a non-empty slot among `1 .. nSlots - 1` (`nSlots`
and the cursor being values of `Two`, `EMPTYSLOT` negative), the new `nSlots` is smaller
than the old one and some slot `k` that was non-empty and is non-empty after the call
has a number at or above the new `nSlots`. -/
theorem C17_slot_count_after_compaction (C : Consts) (p : SlottedPage) (slotNo : Int) :
    (EduOM_CompactPage C p slotNo).header.nSlots
      = wrapTwo (1 + ((copiedSlots C p slotNo).length : Int))
    ∧ ((copiedSlots C p slotNo).length ≤ 32766 →
        (EduOM_CompactPage C p slotNo).header.nSlots
          = 1 + ((copiedSlots C p slotNo).length : Int))
    ∧ ∀ i j : Nat, 1 ≤ i → i < j → (j : Int) < p.header.nSlots →
        (slotAt p (i : Int)).offset = C.EMPTYSLOT →
        (slotAt p (j : Int)).offset ≠ C.EMPTYSLOT →
        (slotNo = C.NIL ∨ (1 ≤ slotNo ∧ slotNo < p.header.nSlots
          ∧ (slotAt p slotNo).offset ≠ C.EMPTYSLOT)) →
        p.header.nSlots ≤ 32767 →
        C.EMPTYSLOT < 0 →
        p.header.nSlots * ((C.sizeofObjectHdr : Int) + (C.sizeofObjectData : Int))
          + (C.sizeofObjectPtr : Int) ≤ 32767 →
        (EduOM_CompactPage C p slotNo).header.nSlots < p.header.nSlots
        ∧ ∃ k : Nat, (EduOM_CompactPage C p slotNo).header.nSlots ≤ (k : Int)
            ∧ (k : Int) < p.header.nSlots
            ∧ (slotAt p (k : Int)).offset ≠ C.EMPTYSLOT
            ∧ (slotAt (EduOM_CompactPage C p slotNo) (k : Int)).offset ≠ C.EMPTYSLOT := by
  refine ⟨EduOM_CompactPage_nSlots_wrap C p slotNo, EduOM_CompactPage_nSlots C p slotNo, ?_⟩
  intro i j hi hij hj hEi hLj hs hn hE hb
  rw [EduOM_CompactPage_nSlots C p slotNo (copiedSlots_length_le_of_valid C p slotNo hn hs),
    copiedSlots_length C p slotNo hs]
  have hjl : j ∈ liveSlots C p := (mem_liveSlots C p j).mpr ⟨⟨by omega, hj⟩, hLj⟩
  obtain ⟨m, hm, hmax⟩ := Finset.exists_max_image (liveSlots C p).toFinset id
    ⟨j, List.mem_toFinset.mpr hjl⟩
  rw [List.mem_toFinset] at hm
  have hmax' : ∀ x ∈ liveSlots C p, x ≤ m := fun x hx =>
    hmax x (List.mem_toFinset.mpr hx)
  have hmprop := (mem_liveSlots C p m).mp hm
  have hjm : j ≤ m := hmax' j hjl
  have hlen : (liveSlots C p).length + 1 ≤ m := by
    refine length_lt_of_missing _ (liveSlots_nodup C p) m i hi (by omega) ?_
    intro x hx
    have hxp := (mem_liveSlots C p x).mp hx
    refine ⟨hxp.1.1, hmax' x hx, ?_⟩
    intro hxi
    rw [hxi] at hxp
    exact hxp.2 hEi
  refine ⟨by omega, m, by omega, hmprop.1.2, hmprop.2, ?_⟩
  rw [slotAt_EduOM_CompactPage]
  rcases (compactLoops_cursor C p slotNo (by omega) hb).2.2 (m : Int) with h | h
  · rw [h]; exact hmprop.2
  · omega

/-- C17, amended, on `pageHole` compacted with no pinned slot: slot 2 is empty and slot 3 is
not; two slots are copied, `nSlots` goes from 4 to 3, and slot 3 stays non-empty. -/
theorem C17_slot_count_after_compaction_witness :
    copiedSlots exampleConsts pageHole exampleConsts.NIL = [1, 3]
    ∧ (EduOM_CompactPage exampleConsts pageHole exampleConsts.NIL).header.nSlots
        = 1 + ((copiedSlots exampleConsts pageHole exampleConsts.NIL).length : Int)
    ∧ (EduOM_CompactPage exampleConsts pageHole exampleConsts.NIL).header.nSlots
        < pageHole.header.nSlots
    ∧ ∃ k : Nat, (EduOM_CompactPage exampleConsts pageHole exampleConsts.NIL).header.nSlots
          ≤ (k : Int)
        ∧ (k : Int) < pageHole.header.nSlots
        ∧ (slotAt pageHole (k : Int)).offset ≠ exampleConsts.EMPTYSLOT
        ∧ (slotAt (EduOM_CompactPage exampleConsts pageHole exampleConsts.NIL)
            (k : Int)).offset ≠ exampleConsts.EMPTYSLOT :=
  have h := C17_slot_count_after_compaction exampleConsts pageHole exampleConsts.NIL
  have h2 := h.2.2 2 3 (by decide) (by decide) (by decide) (by decide) (by decide)
    (Or.inl rfl) (by decide) (by decide) (by decide)
  ⟨by decide, h.2.1 (by decide), h2.1, h2.2⟩

/-- C18 as stated fails. On `pageFull` (80 bytes: `free = 48`, `unused = 0`, four slot entries
of 8 bytes) the inequality holds with page size 80; destroying the interior slot 2
succeeds (the stray read yields the object's length 12 here, so the page is the one the
interior branch is meant to produce) and leaves `free = 48`, `unused = 28`, `nSlots = 4`,
whose sum 108 exceeds 80. On `pageSmall` (40 bytes, two objects of 8 bytes) the
inequality holds with page size 40; compaction advances by 12 bytes per object and
leaves `free = 24`, `nSlots = 3`, whose sum 48 exceeds 40. On `pageAbove`, the page left
by compacting `pageABC` with slot 2 pinned and destroying slot 3, the inequality holds
with page size 36; destroying its last slot entry (slot 2, at offset 24 above
`free = 12`) leaves `free = 24`, `nSlots = 2`, whose sum 40 exceeds 36. -/
theorem C18_counterexample_accounting_broken :
    PageAccounting exampleConsts 80 pageFull
    ∧ EduOM_DestroyObject exampleConsts (exampleCollab [pageFull] 1 1 (some 12))
        (some exampleCat) (some ⟨1, 7, 2, 11⟩) []
      = { ret := some exampleConsts.eNOERROR
          apage := some { header := exampleHdr 1 4 48 28 (-1) (-1)
                          data := pageFull.data
                          slot := [⟨-1, 0⟩, ⟨0, 10⟩, ⟨-1, 11⟩, ⟨32, 12⟩] }
          dlHead := []
          trace := [Event.BfM_GetTrain ⟨100, 7⟩ 0, Event.BfM_GetTrain ⟨1, 7⟩ 0,
                    Event.om_RemoveFromAvailSpaceList ⟨1, 7⟩ 0, Event.BfM_SetDirty ⟨1, 7⟩ 0,
                    Event.om_PutInAvailSpaceList ⟨1, 7⟩ 0, Event.BfM_FreeTrain ⟨100, 7⟩] }
    ∧ ¬ PageAccounting exampleConsts 80
        { header := exampleHdr 1 4 48 28 (-1) (-1)
          data := pageFull.data
          slot := [⟨-1, 0⟩, ⟨0, 10⟩, ⟨-1, 11⟩, ⟨32, 12⟩] }
    ∧ PageAccounting exampleConsts 40 pageSmall
    ∧ (EduOM_CompactPage exampleConsts pageSmall exampleConsts.NIL).header
        = exampleHdr 1 3 24 0 (-1) (-1)
    ∧ ¬ PageAccounting exampleConsts 40
        (EduOM_CompactPage exampleConsts pageSmall exampleConsts.NIL)
    ∧ (EduOM_DestroyObject exampleConsts
        (exampleCollab [EduOM_CompactPage exampleConsts pageABC 2] 1 1 none)
        (some exampleCat) (some ⟨1, 7, 3, 12⟩) []).apage = some pageAbove
    ∧ PageAccounting exampleConsts 36 pageAbove
    ∧ (EduOM_DestroyObject exampleConsts (exampleCollab [pageAbove] 1 1 none)
        (some exampleCat) (some ⟨1, 7, 2, 11⟩) []).ret = some exampleConsts.eNOERROR
    ∧ Option.map SlottedPage.header (EduOM_DestroyObject exampleConsts
        (exampleCollab [pageAbove] 1 1 none)
        (some exampleCat) (some ⟨1, 7, 2, 11⟩) []).apage = some (exampleHdr 1 2 24 0 (-1) (-1))
    ∧ ¬ PageAccounting exampleConsts 36
        { pageAbove with header := exampleHdr 1 2 24 0 (-1) (-1) } := by
  unfold PageAccounting
  decide

/-- The accounting inequality after `EduOM_CompactPage` as the code is, advancing by the
constant `sizeof(obj->header) + sizeof(obj->data)`: it is kept on a page whose objects
are spaced by at least that constant (`LiveObjectsFit`), `unused` not being negative,
`nSlots` and `free` being values of `Two`, and the pinned slot being none or a non-empty
slot of the page. -/
theorem compact_accounting_of_fit (C : Consts) (pageSize : Int) (p : SlottedPage)
    (slotNo : Int) (hacc : PageAccounting C pageSize p)
    (hu : 0 ≤ p.header.unused) (h1 : 1 ≤ p.header.nSlots) (hn : p.header.nSlots ≤ 32767)
    (hfree : p.header.free + (C.sizeofObjectPtr : Int) ≤ 32767)
    (hptr : (C.sizeofObjectPtr : Int)
      ≤ (C.sizeofObjectHdr : Int) + (C.sizeofObjectData : Int))
    (hs : slotNo = C.NIL ∨ (1 ≤ slotNo ∧ slotNo < p.header.nSlots
      ∧ (slotAt p slotNo).offset ≠ C.EMPTYSLOT))
    (hfit : LiveObjectsFit C p) :
    PageAccounting C pageSize (EduOM_CompactPage C p slotNo) := by
  have hsz : (0 : Int) ≤ (C.sizeofObjectHdr : Int) + (C.sizeofObjectData : Int) := by
    positivity
  have hp0 : (0 : Int) ≤ (C.sizeofObjectPtr : Int) := by positivity
  have hslot : (0 : Int) ≤ (C.sizeofSlottedPageSlot : Int) := by positivity
  have hcl := copiedSlots_length C p slotNo hs
  have hpack := liveObjects_packed C p hfit
  rw [← hcl] at hpack
  have hcur := (compactLoops_cursor_of_bound C p slotNo (by omega)).1
  have hns := EduOM_CompactPage_nSlots C p slotNo
    (copiedSlots_length_le_of_valid C p slotNo hn hs)
  have hfr := (EduOM_CompactPage_counters C p slotNo).1
  have hun := EduOM_CompactPage_unused C p slotNo
  have hlive : ((liveSlots C p).length : Int) + 1 ≤ p.header.nSlots := by
    have hle : (liveSlots C p).length ≤ (compactRange p).length :=
      List.length_filter_le _ _
    rw [compactRange_length] at hle
    omega
  have hmul : (1 + ((copiedSlots C p slotNo).length : Int)) * (C.sizeofSlottedPageSlot : Int)
      ≤ p.header.nSlots * (C.sizeofSlottedPageSlot : Int) :=
    mul_le_mul_of_nonneg_right (by rw [hcl]; omega) hslot
  have hfree' : (EduOM_CompactPage C p slotNo).header.free ≤ p.header.free := by
    rw [hfr, hcur]
    split_ifs with hnil
    · have hexp : (((copiedSlots C p slotNo).length : Int) - 1)
            * ((C.sizeofObjectHdr : Int) + (C.sizeofObjectData : Int))
          = ((copiedSlots C p slotNo).length : Int)
            * ((C.sizeofObjectHdr : Int) + (C.sizeofObjectData : Int))
            - ((C.sizeofObjectHdr : Int) + (C.sizeofObjectData : Int)) := by ring
      rw [hexp]
      omega
    · exact hpack
  simp only [PageAccounting] at hacc ⊢
  rw [hun, hns]
  omega

/-- C18, amended. For a page that satisfies the accounting inequality and a successful
`EduOM_DestroyObject` on it: through the last-slot branch the page buffer still
satisfies the inequality when the former offset of the slot is at most `free`; through
the interior-slot branch `unused` is the only header field that changes (`free`,
`nSlots` and the others are as they were), and the inequality is not asserted. -/
theorem C18_accounting_preserved (C : Consts) (pageSize : Int) (K : Collab)
    (cat o : ObjectID) (dlHead : List DeallocListElem) (hC : 0 ≤ C.eNOERROR)
    (hacc : PageAccounting C pageSize (K.BfM_GetTrain ⟨o.pageNo, o.volNo⟩).2)
    (hret : (EduOM_DestroyObject C K (some cat) (some o) dlHead).ret = some C.eNOERROR) :
    ∃ q, (EduOM_DestroyObject C K (some cat) (some o) dlHead).apage = some q
      ∧ (o.slotNo + 1 = (K.BfM_GetTrain ⟨o.pageNo, o.volNo⟩).2.header.nSlots →
          (slotAt (K.BfM_GetTrain ⟨o.pageNo, o.volNo⟩).2 o.slotNo).offset
            ≤ (K.BfM_GetTrain ⟨o.pageNo, o.volNo⟩).2.header.free →
          PageAccounting C pageSize q)
      ∧ (o.slotNo + 1 ≠ (K.BfM_GetTrain ⟨o.pageNo, o.volNo⟩).2.header.nSlots →
          q.header.free = (K.BfM_GetTrain ⟨o.pageNo, o.volNo⟩).2.header.free
          ∧ q.header.nSlots = (K.BfM_GetTrain ⟨o.pageNo, o.volNo⟩).2.header.nSlots
          ∧ { q.header with unused := (K.BfM_GetTrain ⟨o.pageNo, o.volNo⟩).2.header.unused }
              = (K.BfM_GetTrain ⟨o.pageNo, o.volNo⟩).2.header) := by
  obtain ⟨q, hq, hap⟩ := destroy_success_page C K cat o dlHead hC hret
  refine ⟨q, hap, ?_, ?_⟩
  · intro hlast hoff
    simp only [destroyUpdate, setSlotOffset_header, hlast, if_true,
      Option.some.injEq] at hq
    subst hq
    simp only [PageAccounting] at hacc ⊢
    have hslot : (0 : Int) ≤ (C.sizeofSlottedPageSlot : Int) := by positivity
    have hexp : ((K.BfM_GetTrain ⟨o.pageNo, o.volNo⟩).2.header.nSlots - 1)
          * (C.sizeofSlottedPageSlot : Int)
        = (K.BfM_GetTrain ⟨o.pageNo, o.volNo⟩).2.header.nSlots
          * (C.sizeofSlottedPageSlot : Int) - (C.sizeofSlottedPageSlot : Int) := by ring
    rw [hexp]
    omega
  · intro hnot
    simp only [destroyUpdate, setSlotOffset_header, hnot, if_false] at hq
    split at hq
    · simp at hq
    · simp only [Option.some.injEq] at hq
      subst hq
      exact ⟨rfl, rfl, rfl⟩

/-- C18, amended, on `pageABC` with page size 128: destroying the last slot entry (slot 3)
leaves a page that satisfies the inequality; destroying the interior slot 2 (the stray
read yielding 12) leaves `free = 48` and `nSlots = 4`. -/
theorem C18_accounting_preserved_witness :
    PageAccounting exampleConsts 128 pageABC
    ∧ (EduOM_DestroyObject exampleConsts (fileABC none)
        (some exampleCat) (some ⟨1, 7, 3, 12⟩) []).ret = some exampleConsts.eNOERROR
    ∧ (∃ q, (EduOM_DestroyObject exampleConsts (fileABC none)
          (some exampleCat) (some ⟨1, 7, 3, 12⟩) []).apage = some q
        ∧ PageAccounting exampleConsts 128 q)
    ∧ (EduOM_DestroyObject exampleConsts (fileABC (some 12))
        (some exampleCat) (some ⟨1, 7, 2, 11⟩) []).ret = some exampleConsts.eNOERROR
    ∧ (∃ q, (EduOM_DestroyObject exampleConsts (fileABC (some 12))
          (some exampleCat) (some ⟨1, 7, 2, 11⟩) []).apage = some q
        ∧ q.header.free = 48 ∧ q.header.nSlots = 4) :=
  have hABC : PageAccounting exampleConsts 128 pageABC := by unfold PageAccounting; decide
  have hA := C18_accounting_preserved exampleConsts 128 (fileABC none) exampleCat
    ⟨1, 7, 3, 12⟩ [] (by decide) hABC (by decide)
  have hB := C18_accounting_preserved exampleConsts 128 (fileABC (some 12)) exampleCat
    ⟨1, 7, 2, 11⟩ [] (by decide) hABC (by decide)
  ⟨hABC, by decide,
   hA.elim (fun q hq => ⟨q, hq.1, hq.2.1 (by decide) (by decide)⟩),
   by decide,
   hB.elim (fun q hq => ⟨q, hq.1, (hq.2.2 (by decide)).1, (hq.2.2 (by decide)).2.1⟩)⟩

/-- C19 as stated fails for the release operation: with a `BfM_FreeTrain` that fails with
-301, destroying slot 3 of `pageABC` calls `BfM_FreeTrain` on the catalog page and
returns `eNOERROR`. -/
theorem C19_counterexample_release_failure_ignored :
    (withFailingRelease (fileABC none) (-301)).BfM_FreeTrain ⟨100, 7⟩ = -301
    ∧ Event.BfM_FreeTrain ⟨100, 7⟩ ∈ (EduOM_DestroyObject exampleConsts
        (withFailingRelease (fileABC none) (-301))
        (some exampleCat) (some ⟨1, 7, 3, 12⟩) []).trace
    ∧ (EduOM_DestroyObject exampleConsts (withFailingRelease (fileABC none) (-301))
        (some exampleCat) (some ⟨1, 7, 3, 12⟩) []).ret = some exampleConsts.eNOERROR := by
  decide

/-- C19, amended: if a call that `EduOM_DestroyObject` made to another module and whose code
it reads (`BfM_GetTrain`, `BfM_SetDirty`, `om_RemoveFromAvailSpaceList`,
`om_PutInAvailSpaceList`, `om_FileMapDeletePage`, `Util_getElementFromPool`) returned a
negative code `e`, then `EduOM_DestroyObject` returns exactly `e`, which is not
`eNOERROR` (a non-negative code). -/
theorem C19_failures_propagate (C : Consts) (K : Collab)
    (catObjForFile oid : Option ObjectID) (dlHead : List DeallocListElem)
    (ev : Event) (e : Int)
    (hev : ev ∈ (EduOM_DestroyObject C K catObjForFile oid dlHead).trace)
    (hcode : ev.code = some e) (hneg : e < 0) :
    (EduOM_DestroyObject C K catObjForFile oid dlHead).ret = some e
    ∧ (0 ≤ C.eNOERROR →
        (EduOM_DestroyObject C K catObjForFile oid dlHead).ret ≠ some C.eNOERROR) := by
  have key : (EduOM_DestroyObject C K catObjForFile oid dlHead).ret = some e := by
    cases catObjForFile with
    | none => simp [EduOM_DestroyObject] at hev
    | some cat =>
    cases oid with
    | none => simp [EduOM_DestroyObject] at hev
    | some o =>
    simp only [EduOM_DestroyObject, destroyBody] at hev ⊢
    split_ifs at hev ⊢ with h1 h2 h3
    · simp only [List.mem_singleton] at hev
      subst hev; simp only [Event.code, Option.some.injEq] at hcode; subst hcode; rfl
    · simp only [List.mem_append, List.mem_singleton] at hev
      rcases hev with hev | hev <;> subst hev <;>
        simp only [Event.code, Option.some.injEq] at hcode <;> subst hcode <;>
        first | rfl | omega
    · simp only [List.mem_append, List.mem_singleton] at hev
      rcases hev with ((hev | hev) | hev) | hev <;> subst hev <;>
        first
        | (simp only [Event.code, Option.some.injEq] at hcode; subst hcode; first | rfl | omega)
        | (simp [Event.code] at hcode)
    · have htr : ∀ ev ∈ [Event.BfM_GetTrain ⟨cat.pageNo, cat.volNo⟩
            (K.BfM_GetTrain ⟨cat.pageNo, cat.volNo⟩).1]
          ++ [Event.BfM_GetTrain ⟨o.pageNo, o.volNo⟩ (K.BfM_GetTrain ⟨o.pageNo, o.volNo⟩).1]
          ++ [Event.om_RemoveFromAvailSpaceList ⟨o.pageNo, o.volNo⟩
            (K.om_RemoveFromAvailSpaceList cat ⟨o.pageNo, o.volNo⟩
              (K.BfM_GetTrain ⟨o.pageNo, o.volNo⟩).2)],
          ∀ e, ev.code = some e → 0 ≤ e := by
        intro ev hev e hc
        simp only [List.mem_append, List.mem_singleton] at hev
        rcases hev with (hev | hev) | hev <;> subst hev <;>
          simp only [Event.code, Option.some.injEq] at hc <;> subst hc <;> omega
      split at hev
      · exact absurd (htr ev hev e hcode) (by omega)
      · exact destroyFinish_propagates C K cat o _ _ _ dlHead _ htr ev e hev hcode hneg
  refine ⟨key, ?_⟩
  intro hC h
  rw [key] at h
  simp only [Option.some.injEq] at h
  omega

/-- C19, amended, on `fileDirtyFails`: `BfM_SetDirty` fails with -77 while slot 3 of `pageABC`
is destroyed, and the call returns -77. -/
theorem C19_failures_propagate_witness :
    Event.BfM_SetDirty ⟨1, 7⟩ (-77) ∈ (EduOM_DestroyObject exampleConsts fileDirtyFails
        (some exampleCat) (some ⟨1, 7, 3, 12⟩) []).trace
    ∧ (EduOM_DestroyObject exampleConsts fileDirtyFails
        (some exampleCat) (some ⟨1, 7, 3, 12⟩) []).ret = some (-77)
    ∧ (EduOM_DestroyObject exampleConsts fileDirtyFails
        (some exampleCat) (some ⟨1, 7, 3, 12⟩) []).ret ≠ some exampleConsts.eNOERROR :=
  have h := C19_failures_propagate exampleConsts fileDirtyFails
    (some exampleCat) (some ⟨1, 7, 3, 12⟩) [] (Event.BfM_SetDirty ⟨1, 7⟩ (-77)) (-77)
    (by decide) rfl (by decide)
  ⟨by decide, h.1, h.2 (by decide)⟩

/-- C20, evaluated on `fileSingle` (one page) and `fileTwoPages`, with a current object on
the first page. The first loop fetches the first page, then every later page of the
chain, then page `NIL`, whose `BfM_GetTrain` fails; the call returns that error. -/
theorem C20_walk_runs_past_first_page :
    Option.map (fun r => (r.ret, r.trace)) (EduOM_NextObject exampleConsts fileSingle 10
        (some exampleCat) (some ⟨1, 7, 1, 10⟩) (some oidBuf) (some hdrBuf))
      = some (-201, [Event.BfM_GetTrain ⟨100, 7⟩ 0, Event.BfM_GetTrain ⟨1, 7⟩ 0,
                     Event.BfM_GetTrain ⟨exampleConsts.NIL, 7⟩ (-201)])
    ∧ Option.map (fun r => (r.ret, r.trace)) (EduOM_NextObject exampleConsts fileTwoPages 10
        (some exampleCat) (some ⟨1, 7, 2, 11⟩) (some oidBuf) (some hdrBuf))
      = some (-201, [Event.BfM_GetTrain ⟨100, 7⟩ 0, Event.BfM_GetTrain ⟨1, 7⟩ 0,
                     Event.BfM_GetTrain ⟨2, 7⟩ 0,
                     Event.BfM_GetTrain ⟨exampleConsts.NIL, 7⟩ (-201)]) := by
  decide

/-! ## EduOM_DestroyObject: live objects and the free offset -/

/-- C21 as stated fails. On `pagePinned`, a page whose three objects lie within `[0, free)` with
slot 2 physically last (offsets 0, 28, 12 for slots 1, 2, 3; `free = 48`).
Destroying slot 3, the last entry of the slot array, succeeds and sets `free` to the
former offset of slot 3, which is 12. Slot 2 is still non-empty and its object of 20
bytes starts at offset 28: it lies above the new `free`, so the live objects are no
longer below `free`. -/
theorem C21_destroy_last_entry_leaves_object_above_free :
    LiveObjectsBelowFree exampleConsts pagePinned
    ∧ (liveSlots exampleConsts pagePinned).map
        (fun i : Nat => ((slotAt pagePinned (i : Int)).offset,
          objectSize exampleConsts pagePinned (slotAt pagePinned (i : Int)).offset))
        = [(0, 12), (28, 20), (12, 16)]
    ∧ EduOM_DestroyObject exampleConsts filePinned
        (some exampleCat) (some ⟨1, 7, 3, 12⟩) []
      = { ret := some exampleConsts.eNOERROR
          apage := some { header := exampleHdr 1 3 12 0 (-1) (-1)
                          data := pagePinned.data
                          slot := [⟨-1, 0⟩, ⟨0, 10⟩, ⟨28, 11⟩, ⟨-1, 12⟩] }
          dlHead := []
          trace := [Event.BfM_GetTrain ⟨100, 7⟩ 0, Event.BfM_GetTrain ⟨1, 7⟩ 0,
                    Event.om_RemoveFromAvailSpaceList ⟨1, 7⟩ 0, Event.BfM_SetDirty ⟨1, 7⟩ 0,
                    Event.om_PutInAvailSpaceList ⟨1, 7⟩ 0, Event.BfM_FreeTrain ⟨100, 7⟩] }
    ∧ liveSlots exampleConsts
        { header := exampleHdr 1 3 12 0 (-1) (-1)
          data := pagePinned.data
          slot := [⟨-1, 0⟩, ⟨0, 10⟩, ⟨28, 11⟩, ⟨-1, 12⟩] } = [1, 2]
    ∧ ¬ LiveObjectsBelowFree exampleConsts
        { header := exampleHdr 1 3 12 0 (-1) (-1)
          data := pagePinned.data
          slot := [⟨-1, 0⟩, ⟨0, 10⟩, ⟨28, 11⟩, ⟨-1, 12⟩] } := by
  unfold LiveObjectsBelowFree
  decide

/-- C21, amended. For a page whose live objects lie within `[0, free)`, after a successful
`EduOM_DestroyObject` the live objects of the page buffer still lie within `[0, free)` of
that page, provided that, when the destroyed slot is the last entry of the slot array,
no other live object reaches beyond the former offset of the destroyed slot. -/
theorem C21_objects_below_free_kept (C : Consts) (K : Collab)
    (cat o : ObjectID) (dlHead : List DeallocListElem) (hC : 0 ≤ C.eNOERROR)
    (hret : (EduOM_DestroyObject C K (some cat) (some o) dlHead).ret = some C.eNOERROR)
    (hinv : LiveObjectsBelowFree C (K.BfM_GetTrain ⟨o.pageNo, o.volNo⟩).2)
    (hcase : o.slotNo + 1 = (K.BfM_GetTrain ⟨o.pageNo, o.volNo⟩).2.header.nSlots →
      ∀ i ∈ liveSlots C (K.BfM_GetTrain ⟨o.pageNo, o.volNo⟩).2, (i : Int) ≠ o.slotNo →
        (slotAt (K.BfM_GetTrain ⟨o.pageNo, o.volNo⟩).2 (i : Int)).offset
          + objectSize C (K.BfM_GetTrain ⟨o.pageNo, o.volNo⟩).2
              (slotAt (K.BfM_GetTrain ⟨o.pageNo, o.volNo⟩).2 (i : Int)).offset
          ≤ (slotAt (K.BfM_GetTrain ⟨o.pageNo, o.volNo⟩).2 o.slotNo).offset) :
    ∃ q, (EduOM_DestroyObject C K (some cat) (some o) dlHead).apage = some q
      ∧ LiveObjectsBelowFree C q := by
  by_cases hlast : o.slotNo + 1 = (K.BfM_GetTrain ⟨o.pageNo, o.volNo⟩).2.header.nSlots
  · exact destroy_last_keeps_objects_below_free C K cat o dlHead hC hret hlast
      (fun i hi hne => ⟨(hinv i hi).1, hcase hlast i hi hne⟩)
  · exact destroy_interior_keeps_objects_below_free C K cat o dlHead hC hret hlast hinv

/-- C21, amended, on `pageABC` (offsets 0, 12, 32 for slots 1, 2, 3; `free = 48`): destroying
slot 3, the last entry and the physically last object, and destroying the interior slot
2 (the stray read yielding 12) both leave the live objects within `[0, free)`. -/
theorem C21_objects_below_free_kept_witness :
    LiveObjectsBelowFree exampleConsts pageABC
    ∧ (EduOM_DestroyObject exampleConsts (fileABC none)
        (some exampleCat) (some ⟨1, 7, 3, 12⟩) []).ret = some exampleConsts.eNOERROR
    ∧ (∃ q, (EduOM_DestroyObject exampleConsts (fileABC none)
          (some exampleCat) (some ⟨1, 7, 3, 12⟩) []).apage = some q
        ∧ LiveObjectsBelowFree exampleConsts q)
    ∧ (EduOM_DestroyObject exampleConsts (fileABC (some 12))
        (some exampleCat) (some ⟨1, 7, 2, 11⟩) []).ret = some exampleConsts.eNOERROR
    ∧ (∃ q, (EduOM_DestroyObject exampleConsts (fileABC (some 12))
          (some exampleCat) (some ⟨1, 7, 2, 11⟩) []).apage = some q
        ∧ LiveObjectsBelowFree exampleConsts q) :=
  have hABC : LiveObjectsBelowFree exampleConsts pageABC := by
    unfold LiveObjectsBelowFree; decide
  ⟨hABC, by decide,
   C21_objects_below_free_kept exampleConsts (fileABC none) exampleCat ⟨1, 7, 3, 12⟩ []
     (by decide) (by decide) hABC (by decide),
   by decide,
   C21_objects_below_free_kept exampleConsts (fileABC (some 12)) exampleCat ⟨1, 7, 2, 11⟩ []
     (by decide) (by decide) hABC (by decide)⟩

end EduOM
